import Mathlib

/-!
Verification development for the `claude-run` repository: a Phaser 3 + TypeScript
scaffold of a 2D platformer together with a detailed design document for a custom
kinematic movement and tile-collision core.

Part 1 embeds the executable sources (`src/main.ts`, `src/game/scenes/GameScene.ts`)
as effect-trace definitions.  Part 2 embeds the movement/collision core.  The core
is not implemented anywhere in the executable sources; every definition of Part 2
is therefore modelled from the specification's own words (sections 3, 4, 6 and 7
of the spec and the movement pseudocode and `PLAYER_CONFIG` table of the design
document), and each such definition says so in its doc comment.  Positions,
velocities and times are modelled as exact rationals.
-/

/-! ## Part 1: the executable sources -/

/-- One effect a registered input handler can perform.  The actual handler in
`GameScene.create` only logs; `startScene` is the operation the on-screen prompt
suggests but that the code never performs. -/
inductive HandlerEffect where
  | consoleLog (msg : String)
  | startScene (target : String)
deriving DecidableEq

/-- One action performed by a scene method of `GameScene.ts`: adding a static text
object (position, content, style, origin), or registering a keyboard handler. -/
inductive SceneAction where
  | addText (x y : ℚ) (content fontSize color fontFamily : String) (originX originY : ℚ)
  | onKey (key : String) (handler : List HandlerEffect)
deriving DecidableEq

/-- Observable scene-level state of the running game: which scene is active and
whether gameplay has been started. -/
structure SceneState where
  activeScene : String
  started : Bool
deriving DecidableEq

/-- Interpretation of a single handler effect on the scene state.  A console log
changes nothing; a scene start would switch the active scene. -/
def applyEffect (s : SceneState) : HandlerEffect → SceneState
  | .consoleLog _ => s
  | .startScene t => { s with activeScene := t, started := true }

/-- Run a handler body (a list of effects) on a scene state. -/
def runHandler (s : SceneState) (effects : List HandlerEffect) : SceneState :=
  effects.foldl applyEffect s

/-- Whether a scene action is the creation of a text object. -/
def SceneAction.isAddText : SceneAction → Bool
  | .addText _ _ _ _ _ _ _ _ => true
  | _ => false

/-- Whether a scene action registers a key handler. -/
def SceneAction.isOnKey : SceneAction → Bool
  | .onKey _ _ => true
  | _ => false

namespace GameScene

/-- The scene key passed to the `Phaser.Scene` constructor in `GameScene.ts`. -/
def sceneKey : String := "GameScene"

/-- `GameScene.preload`: empty body (a comment only). -/
def preload : List SceneAction := []

/-- The body of the `keydown-SPACE` listener registered in `GameScene.create`:
a single `console.log('Game starting...')`. -/
def spaceHandler : List HandlerEffect := [.consoleLog "Game starting..."]

/-- `GameScene.create`: two placeholder text objects (each with origin 0.5) and
one `keydown-SPACE` listener. -/
def create : List SceneAction :=
  [ .addText 640 360 "Claude Run" "64px" "#ffffff" "Arial" (1/2) (1/2),
    .addText 640 440 "Press SPACE to start" "24px" "#888888" "Arial" (1/2) (1/2),
    .onKey "keydown-SPACE" spaceHandler ]

/-- `GameScene.update(_time, _delta)`: empty body for every argument pair. -/
def update (_time _delta : ℚ) : List SceneAction := []

end GameScene

/-- The `Phaser.Types.Core.GameConfig` value built in `src/main.ts`.  `physics`
is an `Option` because the source object literal simply has no such field. -/
structure GameConfig where
  renderType : String
  width : ℕ
  height : ℕ
  parent : String
  pixelArt : Bool
  backgroundColor : String
  scene : List String
  physics : Option String
deriving DecidableEq

/-- The config object literal of `src/main.ts`, passed to `new Phaser.Game`. -/
def mainConfig : GameConfig :=
  { renderType := "AUTO"
    width := 1280
    height := 720
    parent := "game"
    pixelArt := true
    backgroundColor := "#1a1a2e"
    scene := [GameScene.sceneKey]
    physics := none }

/-! ## Part 2: the movement/collision core, modelled from the spec -/

/-- Modelled from the spec: 2D vector of world units (spec §3, "floating-point
world units", modelled as exact rationals). -/
structure Vec2 where
  x : ℚ
  y : ℚ
deriving DecidableEq

/-- Modelled from the spec (§3 "KinematicBody"): position (top-left of AABB),
size, velocity, grounded flag and the two JumpAssist timers. -/
structure KinematicBody where
  position : Vec2
  size : Vec2
  velocity : Vec2
  grounded : Bool
  coyoteTimer : ℚ
  jumpBufferTimer : ℚ
deriving DecidableEq

/-- Modelled from the spec (§2 "InputIntent"): per-tick snapshot of input. -/
structure InputIntent where
  moveLeft : Bool
  moveRight : Bool
  jumpHeld : Bool
  jumpJustPressed : Bool
  jumpJustReleased : Bool
  downHeld : Bool
deriving DecidableEq

/-- The all-false input intent (no keys pressed, no edges). -/
def intentNone : InputIntent :=
  { moveLeft := false, moveRight := false, jumpHeld := false,
    jumpJustPressed := false, jumpJustReleased := false, downHeld := false }

/-- Modelled from the spec (§3, §6): the tile map's solidity layer, a read-only
predicate on tile grid cells (column, row). -/
abbrev TileMap := ℤ → ℤ → Bool

/-- Modelled from the design document ("16x16 grid" tileset, §8 scenario
`wallTileX · TILE_SIZE`): the tile edge length in world units. -/
def TILE_SIZE : ℚ := 16

/-- Modelled from the spec (§4.2): sample points on a leading edge are inset
"by a small margin (e.g., 2 units)" from the true corners. -/
def SAMPLE_INSET : ℚ := 2

/-- Modelled from the spec (§6): `isSolid(worldX, worldY)`, the world-coordinate
query over the tile grid. -/
def isSolidAt (m : TileMap) (wx wy : ℚ) : Bool :=
  m ⌊wx / TILE_SIZE⌋ ⌊wy / TILE_SIZE⌋

/-- Modelled from the spec (§6 and the design document's `PLAYER_CONFIG`):
the immutable movement configuration. -/
structure MovementConfig where
  MOVE_SPEED : ℚ
  ACCELERATION : ℚ
  FRICTION : ℚ
  GRAVITY : ℚ
  JUMP_VELOCITY : ℚ
  MAX_FALL_SPEED : ℚ
  COYOTE_TIME : ℚ
  JUMP_BUFFER : ℚ
deriving DecidableEq

/-- The default constants of the design document's `PLAYER_CONFIG` table. -/
def PLAYER_CONFIG : MovementConfig :=
  { MOVE_SPEED := 200
    ACCELERATION := 1500
    FRICTION := 2000
    GRAVITY := 1200
    JUMP_VELOCITY := -400
    MAX_FALL_SPEED := 600
    COYOTE_TIME := 100
    JUMP_BUFFER := 100 }

/-- Modelled from the spec (§4.1): the clamped linear approach of a value toward
a target; it never overshoots (if the step would cross the target, it snaps
exactly to the target). -/
def approach (current target step : ℚ) : ℚ :=
  if current < target then min (current + step) target
  else if target < current then max (current - step) target
  else current

/-- Modelled from the spec (§4.1): target horizontal velocity from intent;
right takes precedence if both held, zero if neither. -/
def targetSpeed (cfg : MovementConfig) (intent : InputIntent) : ℚ :=
  if intent.moveRight then cfg.MOVE_SPEED
  else if intent.moveLeft then -cfg.MOVE_SPEED
  else 0

/-- Modelled from the spec (§4.1): horizontal velocity update, approaching the
target at ACCELERATION·Δt when the target is nonzero, else toward zero at
FRICTION·Δt. -/
def horizStep (cfg : MovementConfig) (intent : InputIntent) (vx dt : ℚ) : ℚ :=
  let target := targetSpeed cfg intent
  let rate := if target = 0 then cfg.FRICTION else cfg.ACCELERATION
  approach vx target (rate * dt)

/-- Modelled from the spec (§4.1): `velocity.y += GRAVITY·Δt, then clamp to
≤ MAX_FALL_SPEED`. -/
def gravityStep (cfg : MovementConfig) (vy dt : ℚ) : ℚ :=
  min (vy + cfg.GRAVITY * dt) cfg.MAX_FALL_SPEED

/-- Modelled from the spec (§4.1 "Variable height"): if the jump input was just
released while moving upward, halve the vertical velocity. -/
def varHeightStep (intent : InputIntent) (vy : ℚ) : ℚ :=
  if intent.jumpJustReleased && decide (vy < 0) then vy * (1 / 2) else vy

/-- Modelled from the spec (§4.3): `canJump()` is true iff grounded or the
coyote timer is positive. -/
def canJump (b : KinematicBody) : Bool :=
  b.grounded || decide (0 < b.coyoteTimer)

/-- Modelled from the spec (§4.3): timer bookkeeping, run once per tick before
jump-consumption logic.  The coyote timer is reset to COYOTE_TIME whenever the
body is grounded at the start of the tick, else decremented saturating at 0;
the jump-buffer timer is reset to JUMP_BUFFER on a jump press, else decremented
saturating at 0. -/
def updateTimers (cfg : MovementConfig) (intent : InputIntent) (b : KinematicBody)
    (dt : ℚ) : KinematicBody :=
  { b with
    coyoteTimer := if b.grounded then cfg.COYOTE_TIME else max (b.coyoteTimer - dt) 0
    jumpBufferTimer :=
      if intent.jumpJustPressed then cfg.JUMP_BUFFER else max (b.jumpBufferTimer - dt) 0 }

/-- Modelled from the spec (§4.1 "MotionIntegrator"): horizontal approach,
gravity with terminal-velocity clamp, jump trigger (if just pressed and
JumpAssist allows it: vertical velocity becomes JUMP_VELOCITY, grounded is
cleared and both timers are consumed), then variable jump height.  Position is
not moved. -/
def integrate (cfg : MovementConfig) (b : KinematicBody) (intent : InputIntent)
    (dt : ℚ) : KinematicBody :=
  let vx := horizStep cfg intent b.velocity.x dt
  let vyG := gravityStep cfg b.velocity.y dt
  let doJump := intent.jumpJustPressed && canJump b
  let vy1 := if doJump then cfg.JUMP_VELOCITY else vyG
  let vy2 := varHeightStep intent vy1
  if doJump then
    { b with velocity := ⟨vx, vy2⟩, grounded := false, coyoteTimer := 0, jumpBufferTimer := 0 }
  else
    { b with velocity := ⟨vx, vy2⟩ }

/-- Modelled from the spec (§4.2 "CollisionResolver", X axis): tentatively apply
the displacement, sample three inset points on the leading vertical edge, and on
a solid hit snap to the tile boundary adjacent to the direction of travel and
zero the horizontal velocity.  Zero displacement performs no query and is a
no-op. -/
def resolveX (m : TileMap) (b : KinematicBody) (dx : ℚ) : KinematicBody :=
  if dx = 0 then b
  else
    let nx := b.position.x + dx
    let edge := if 0 < dx then nx + b.size.x else nx
    let y1 := b.position.y + SAMPLE_INSET
    let y2 := b.position.y + b.size.y / 2
    let y3 := b.position.y + b.size.y - SAMPLE_INSET
    if isSolidAt m edge y1 || isSolidAt m edge y2 || isSolidAt m edge y3 then
      let snapped :=
        if 0 < dx then (⌊edge / TILE_SIZE⌋ : ℚ) * TILE_SIZE - b.size.x
        else ((⌊edge / TILE_SIZE⌋ : ℚ) + 1) * TILE_SIZE
      { b with position := { b.position with x := snapped },
               velocity := { b.velocity with x := 0 } }
    else
      { b with position := { b.position with x := nx } }

/-- Modelled from the spec (§4.2 "CollisionResolver", Y axis): as for X but on
the horizontal leading edge; a downward collision sets grounded, an upward
collision leaves grounded untouched, no collision (free fall) clears grounded,
and a zero displacement is a no-op that must not clear grounded. -/
def resolveY (m : TileMap) (b : KinematicBody) (dy : ℚ) : KinematicBody :=
  if dy = 0 then b
  else
    let ny := b.position.y + dy
    let edge := if 0 < dy then ny + b.size.y else ny
    let x1 := b.position.x + SAMPLE_INSET
    let x2 := b.position.x + b.size.x / 2
    let x3 := b.position.x + b.size.x - SAMPLE_INSET
    if isSolidAt m x1 edge || isSolidAt m x2 edge || isSolidAt m x3 edge then
      let snapped :=
        if 0 < dy then (⌊edge / TILE_SIZE⌋ : ℚ) * TILE_SIZE - b.size.y
        else ((⌊edge / TILE_SIZE⌋ : ℚ) + 1) * TILE_SIZE
      { b with position := { b.position with y := snapped },
               velocity := { b.velocity with y := 0 },
               grounded := if 0 < dy then true else b.grounded }
    else
      { b with position := { b.position with y := ny }, grounded := false }

/-- Modelled from the spec (§4.3 / §4.4 step 6): buffered-jump reconciliation.
If the body just landed (was airborne, is now grounded) with a pending jump
buffer, the jump is triggered by overriding the vertical velocity, and the
buffer is consumed.  Of the two policies §4.4 leaves open, the first listed one
is adopted: the override happens at the end of the tick and nothing is re-run. -/
def reconcileBuffer (cfg : MovementConfig) (wasGrounded : Bool) (b : KinematicBody) :
    KinematicBody :=
  if !wasGrounded && b.grounded && decide (0 < b.jumpBufferTimer) then
    { b with velocity := { b.velocity with y := cfg.JUMP_VELOCITY }, jumpBufferTimer := 0 }
  else b

/-- The named stages of a tick, in the order `tickTraced` performs them.  The
integrator stage is named after the gravity application it performs (§4.1). -/
inductive TickStage where
  | updateTimersStage
  | applyGravityStage
  | resolveXStage
  | resolveYStage
  | reconcileStage
deriving DecidableEq

/-- Modelled from the spec (§4.4 "MovementController"): the fixed tick sequence
(record wasGrounded; update timers; integrate, which applies gravity; resolve X;
resolve Y; buffered-jump reconciliation), together with the list of stages
executed.  Per §7, a zero Δt degrades to a no-op with no state change. -/
def tickTraced (cfg : MovementConfig) (m : TileMap) (b : KinematicBody)
    (intent : InputIntent) (dt : ℚ) : KinematicBody × List TickStage :=
  if dt = 0 then (b, [])
  else
    let wasGrounded := b.grounded
    let b1 := updateTimers cfg intent b dt
    let b2 := integrate cfg b1 intent dt
    let b3 := resolveX m b2 (b2.velocity.x * dt)
    let b4 := resolveY m b3 (b3.velocity.y * dt)
    let b5 := reconcileBuffer cfg wasGrounded b4
    (b5, [.updateTimersStage, .applyGravityStage, .resolveXStage, .resolveYStage,
          .reconcileStage])

/-- Modelled from the spec (§4.4): `tick`, the core's single public entry point
per entity per frame. -/
def tick (cfg : MovementConfig) (m : TileMap) (b : KinematicBody)
    (intent : InputIntent) (dt : ℚ) : KinematicBody :=
  (tickTraced cfg m b intent dt).1

/-- `n` repetitions of `tick` with a fixed intent and Δt. -/
def iterTick (cfg : MovementConfig) (m : TileMap) (intent : InputIntent) (dt : ℚ) :
    ℕ → KinematicBody → KinematicBody
  | 0, b => b
  | n + 1, b => iterTick cfg m intent dt n (tick cfg m b intent dt)

/-- Fold `tick` over a list of per-tick inputs (intent and Δt). -/
def runTicks (cfg : MovementConfig) (m : TileMap) :
    KinematicBody → List (InputIntent × ℚ) → KinematicBody
  | b, [] => b
  | b, s :: rest => runTicks cfg m (tick cfg m b s.1 s.2) rest

/-! ### Overlap geometry -/

/-- The body's open bounding box `(pos.x, pos.x+size.x) × (pos.y, pos.y+size.y)`
meets tile cell `(c, r)` in a set of positive area. -/
def overlapsCell (pos size : Vec2) (c r : ℤ) : Prop :=
  (c : ℚ) * TILE_SIZE < pos.x + size.x ∧ pos.x < ((c : ℚ) + 1) * TILE_SIZE ∧
  (r : ℚ) * TILE_SIZE < pos.y + size.y ∧ pos.y < ((r : ℚ) + 1) * TILE_SIZE

instance (pos size : Vec2) (c r : ℤ) : Decidable (overlapsCell pos size c r) := by
  unfold overlapsCell
  infer_instance

/-- Horizontal extent of the intersection of the body's box with column `c`. -/
def xExtent (pos size : Vec2) (c : ℤ) : ℚ :=
  min (pos.x + size.x) (((c : ℚ) + 1) * TILE_SIZE) - max pos.x ((c : ℚ) * TILE_SIZE)

/-- Vertical extent of the intersection of the body's box with row `r`. -/
def yExtent (pos size : Vec2) (r : ℤ) : ℚ :=
  min (pos.y + size.y) (((r : ℚ) + 1) * TILE_SIZE) - max pos.y ((r : ℚ) * TILE_SIZE)

/-- The box overlaps no solid cell at all. -/
def cleanOf (m : TileMap) (pos size : Vec2) : Prop :=
  ∀ c r : ℤ, m c r = true → ¬ overlapsCell pos size c r

/-- Every overlap of the box with a solid cell is a vertical corner strip of
extent at most the sampling inset. -/
def yClipOnly (m : TileMap) (pos size : Vec2) : Prop :=
  ∀ c r : ℤ, m c r = true → overlapsCell pos size c r →
    yExtent pos size r ≤ SAMPLE_INSET

/-- Every overlap of the box with a solid cell is a corner clip: of extent at
most the sampling inset on at least one axis. -/
def clipOnly (m : TileMap) (pos size : Vec2) : Prop :=
  ∀ c r : ℤ, m c r = true → overlapsCell pos size c r →
    xExtent pos size c ≤ SAMPLE_INSET ∨ yExtent pos size r ≤ SAMPLE_INSET

/-! ### Concrete instances used to evaluate the theorems -/

/-- A tile map whose only solid cell is `(0, 0)` (world square `[0,16)²`). -/
def mapEmbed : TileMap := fun c r => decide (c = 0 ∧ r = 0)

/-- A body fully embedded inside the solid cell of `mapEmbed`, whose vertical
velocity is exactly cancelled by one tick of gravity at Δt = 1/60. -/
def bodyEmbed : KinematicBody :=
  { position := ⟨2, 2⟩, size := ⟨12, 12⟩, velocity := ⟨0, -20⟩,
    grounded := false, coyoteTimer := 0, jumpBufferTimer := 0 }

/-- A tile map whose only solid cell is `(0, 1)` (world square `[0,16)×[16,32)`). -/
def mapFloor : TileMap := fun c r => decide (c = 0 ∧ r = 1)

/-- A body at rest standing exactly on the solid cell of `mapFloor`. -/
def bodyRest : KinematicBody :=
  { position := ⟨0, 2⟩, size := ⟨12, 14⟩, velocity := ⟨0, 0⟩,
    grounded := true, coyoteTimer := 0, jumpBufferTimer := 0 }

/-- The empty tile map: nothing is solid. -/
def mapEmpty : TileMap := fun _ _ => false

/-- An airborne body just after leaving the ground (coyote timer full). -/
def bodyAir : KinematicBody :=
  { position := ⟨0, -100⟩, size := ⟨12, 14⟩, velocity := ⟨0, 0⟩,
    grounded := false, coyoteTimer := 100, jumpBufferTimer := 0 }

/-- Intent carrying only a fresh jump press. -/
def intentPress : InputIntent := { intentNone with jumpJustPressed := true }

/-- Intent carrying only a fresh jump release. -/
def intentRelease : InputIntent := { intentNone with jumpJustReleased := true }

/-! ## Helper lemmas: field preservation of the tick stages -/

@[simp]
lemma updateTimers_position (cfg i b dt) : (updateTimers cfg i b dt).position = b.position := rfl

@[simp]
lemma updateTimers_size (cfg i b dt) : (updateTimers cfg i b dt).size = b.size := rfl

@[simp]
lemma updateTimers_velocity (cfg i b dt) : (updateTimers cfg i b dt).velocity = b.velocity := rfl

@[simp]
lemma updateTimers_grounded (cfg i b dt) : (updateTimers cfg i b dt).grounded = b.grounded := rfl

@[simp]
lemma integrate_position (cfg b i dt) : (integrate cfg b i dt).position = b.position := by
  unfold integrate
  dsimp only
  split_ifs <;> rfl

@[simp]
lemma integrate_size (cfg b i dt) : (integrate cfg b i dt).size = b.size := by
  unfold integrate
  dsimp only
  split_ifs <;> rfl

lemma resolveX_posY (m b dx) : (resolveX m b dx).position.y = b.position.y := by
  unfold resolveX
  dsimp only
  split_ifs <;> rfl

@[simp]
lemma resolveX_size (m b dx) : (resolveX m b dx).size = b.size := by
  unfold resolveX
  dsimp only
  split_ifs <;> rfl

@[simp]
lemma resolveX_velY (m b dx) : (resolveX m b dx).velocity.y = b.velocity.y := by
  unfold resolveX
  dsimp only
  split_ifs <;> rfl

@[simp]
lemma resolveX_grounded (m b dx) : (resolveX m b dx).grounded = b.grounded := by
  unfold resolveX
  dsimp only
  split_ifs <;> rfl

@[simp]
lemma resolveX_coyote (m b dx) : (resolveX m b dx).coyoteTimer = b.coyoteTimer := by
  unfold resolveX
  dsimp only
  split_ifs <;> rfl

@[simp]
lemma resolveX_buffer (m b dx) : (resolveX m b dx).jumpBufferTimer = b.jumpBufferTimer := by
  unfold resolveX
  dsimp only
  split_ifs <;> rfl

lemma resolveY_posX (m b dy) : (resolveY m b dy).position.x = b.position.x := by
  unfold resolveY
  dsimp only
  split_ifs <;> rfl

@[simp]
lemma resolveY_size (m b dy) : (resolveY m b dy).size = b.size := by
  unfold resolveY
  dsimp only
  split_ifs <;> rfl

@[simp]
lemma resolveY_velX (m b dy) : (resolveY m b dy).velocity.x = b.velocity.x := by
  unfold resolveY
  dsimp only
  split_ifs <;> rfl

@[simp]
lemma resolveY_coyote (m b dy) : (resolveY m b dy).coyoteTimer = b.coyoteTimer := by
  unfold resolveY
  dsimp only
  split_ifs <;> rfl

@[simp]
lemma resolveY_buffer (m b dy) : (resolveY m b dy).jumpBufferTimer = b.jumpBufferTimer := by
  unfold resolveY
  dsimp only
  split_ifs <;> rfl

@[simp]
lemma reconcileBuffer_position (cfg w b) : (reconcileBuffer cfg w b).position = b.position := by
  unfold reconcileBuffer
  split_ifs <;> rfl

@[simp]
lemma reconcileBuffer_size (cfg w b) : (reconcileBuffer cfg w b).size = b.size := by
  unfold reconcileBuffer
  split_ifs <;> rfl

@[simp]
lemma reconcileBuffer_velX (cfg w b) : (reconcileBuffer cfg w b).velocity.x = b.velocity.x := by
  unfold reconcileBuffer
  split_ifs <;> rfl

@[simp]
lemma reconcileBuffer_grounded (cfg w b) : (reconcileBuffer cfg w b).grounded = b.grounded := by
  unfold reconcileBuffer
  split_ifs <;> rfl

@[simp]
lemma reconcileBuffer_coyote (cfg w b) : (reconcileBuffer cfg w b).coyoteTimer = b.coyoteTimer := by
  unfold reconcileBuffer
  split_ifs <;> rfl

lemma reconcileBuffer_of_wasGrounded (cfg b) : reconcileBuffer cfg true b = b := by
  unfold reconcileBuffer
  simp

lemma tick_of_ne (cfg m b i dt) (h : dt ≠ 0) :
    tick cfg m b i dt =
      reconcileBuffer cfg b.grounded
        (resolveY m
          (resolveX m (integrate cfg (updateTimers cfg i b dt) i dt)
            ((integrate cfg (updateTimers cfg i b dt) i dt).velocity.x * dt))
          ((resolveX m (integrate cfg (updateTimers cfg i b dt) i dt)
            ((integrate cfg (updateTimers cfg i b dt) i dt).velocity.x * dt)).velocity.y * dt)) := by
  unfold tick tickTraced
  simp [h]

/-! ## Claim theorems: the executable sources (C1, C9, C10) -/

/-- C1: the implemented `GameScene` contains only placeholder behaviour —
`create` adds exactly two static text objects and registers exactly one
keydown-SPACE listener whose body is the single `console.log` call, `preload`
does nothing, and `update` does nothing; this is the complete behaviour of the
only scene of the executable sources, so no physics, collision, input
abstraction or level-loading logic exists in them. -/
theorem gameScene_placeholder_only :
    GameScene.create =
      [ SceneAction.addText 640 360 "Claude Run" "64px" "#ffffff" "Arial" (1/2) (1/2),
        SceneAction.addText 640 440 "Press SPACE to start" "24px" "#888888" "Arial" (1/2) (1/2),
        SceneAction.onKey "keydown-SPACE" [HandlerEffect.consoleLog "Game starting..."] ] ∧
    (GameScene.create.filter SceneAction.isAddText).length = 2 ∧
    (GameScene.create.filter SceneAction.isOnKey).length = 1 ∧
    GameScene.preload = [] ∧
    ∀ t d : ℚ, GameScene.update t d = [] := by
  refine ⟨rfl, rfl, rfl, rfl, fun _ _ => rfl⟩

/-- C9: after `create` has run, every externally triggered operation leaves all
scene and game state unchanged: the keydown-SPACE handler's body is exactly one
console log, so interpreting it changes no scene state (despite the on-screen
"Press SPACE to start" prompt it starts no scene), and `update` is a no-op for
every time and delta argument. -/
theorem gameScene_externally_inert :
    (∀ s : SceneState, runHandler s GameScene.spaceHandler = s) ∧
    GameScene.spaceHandler = [HandlerEffect.consoleLog "Game starting..."] ∧
    (∀ t d : ℚ, GameScene.update t d = []) := by
  refine ⟨fun s => rfl, rfl, fun _ _ => rfl⟩

/-- C10: the Phaser game configuration of `main.ts` registers exactly one scene
(`GameScene`), sets width 1280, height 720 and pixelArt true, and has no
physics field, so no built-in physics engine is enabled. -/
theorem mainConfig_single_scene_no_physics :
    mainConfig.scene = [GameScene.sceneKey] ∧ mainConfig.scene.length = 1 ∧
    mainConfig.width = 1280 ∧ mainConfig.height = 720 ∧
    mainConfig.pixelArt = true ∧ mainConfig.physics = none := by
  refine ⟨rfl, rfl, rfl, rfl, rfl, rfl⟩

/-! ## Claim theorems: the movement core (C3, C4, C6, C7) -/

/-- C6: invoking `tick` with Δt = 0 changes no field of the body — position,
velocity, grounded and both timers are all unchanged — and no fault is raised
(the function is total). -/
theorem tick_zero_dt_noop (cfg : MovementConfig) (m : TileMap) (b : KinematicBody)
    (intent : InputIntent) : tick cfg m b intent 0 = b := by
  unfold tick tickTraced
  simp

/-- C3: on every tick that performs work (Δt ≠ 0; Δt = 0 is the specified
no-op), the executed stage list is fixed independently of body, intent, map and
configuration, and in it gravity application (the integrator stage) comes
strictly before X-axis resolution, which comes strictly before Y-axis
resolution. -/
theorem tick_stage_order (cfg : MovementConfig) (m : TileMap) (b : KinematicBody)
    (intent : InputIntent) (dt : ℚ) (h : dt ≠ 0) :
    (tickTraced cfg m b intent dt).2 =
      [TickStage.updateTimersStage, TickStage.applyGravityStage, TickStage.resolveXStage,
       TickStage.resolveYStage, TickStage.reconcileStage] ∧
    (tickTraced cfg m b intent dt).2.indexOf TickStage.applyGravityStage <
      (tickTraced cfg m b intent dt).2.indexOf TickStage.resolveXStage ∧
    (tickTraced cfg m b intent dt).2.indexOf TickStage.resolveXStage <
      (tickTraced cfg m b intent dt).2.indexOf TickStage.resolveYStage := by
  have htr : (tickTraced cfg m b intent dt).2 =
      [TickStage.updateTimersStage, TickStage.applyGravityStage, TickStage.resolveXStage,
       TickStage.resolveYStage, TickStage.reconcileStage] := by
    unfold tickTraced
    simp [h]
  refine ⟨htr, ?_, ?_⟩ <;> rw [htr] <;> decide

/-- Witness for C3 at a concrete input. -/
theorem tick_stage_order_witness :
    (1 / 60 : ℚ) ≠ 0 ∧
    (tickTraced PLAYER_CONFIG mapFloor bodyRest intentNone (1/60)).2.indexOf
        TickStage.applyGravityStage <
      (tickTraced PLAYER_CONFIG mapFloor bodyRest intentNone (1/60)).2.indexOf
        TickStage.resolveXStage := by
  refine ⟨by norm_num, ?_⟩
  exact (tick_stage_order PLAYER_CONFIG mapFloor bodyRest intentNone (1/60) (by norm_num)).2.1

/-- C4: the integrator's gravity application clamps the vertical velocity to at
most MAX_FALL_SPEED, for every prior velocity and Δt; moreover (for a
configuration whose jump impulse does not exceed the fall-speed cap, as the
defaults satisfy) the full integrator never outputs a vertical velocity above
MAX_FALL_SPEED, whatever the input intent. -/
theorem gravity_clamped (cfg cfg2 : MovementConfig) (vy dt dt2 : ℚ) (b : KinematicBody)
    (intent : InputIntent)
    (h1 : cfg2.JUMP_VELOCITY ≤ cfg2.MAX_FALL_SPEED) (h2 : 0 ≤ cfg2.MAX_FALL_SPEED) :
    gravityStep cfg vy dt ≤ cfg.MAX_FALL_SPEED ∧
    (integrate cfg2 b intent dt2).velocity.y ≤ cfg2.MAX_FALL_SPEED := by
  constructor
  · exact min_le_right _ _
  · have hg : gravityStep cfg2 b.velocity.y dt2 ≤ cfg2.MAX_FALL_SPEED := min_le_right _ _
    unfold integrate varHeightStep
    dsimp only
    split_ifs with hj hr hr' <;> simp only
    · rcases Bool.and_eq_true_iff.mp hr with ⟨-, hlt⟩
      have : cfg2.JUMP_VELOCITY < 0 := of_decide_eq_true hlt
      linarith
    · exact h1
    · rcases Bool.and_eq_true_iff.mp hr' with ⟨-, hlt⟩
      have : gravityStep cfg2 b.velocity.y dt2 < 0 := of_decide_eq_true hlt
      linarith
    · exact hg

/-- Witness for C4 at a concrete input. -/
theorem gravity_clamped_witness :
    PLAYER_CONFIG.JUMP_VELOCITY ≤ PLAYER_CONFIG.MAX_FALL_SPEED ∧
    (0 : ℚ) ≤ PLAYER_CONFIG.MAX_FALL_SPEED ∧
    gravityStep PLAYER_CONFIG 550 (1/10) ≤ PLAYER_CONFIG.MAX_FALL_SPEED ∧
    (integrate PLAYER_CONFIG bodyRest intentPress (1/60)).velocity.y ≤
      PLAYER_CONFIG.MAX_FALL_SPEED := by
  refine ⟨by norm_num [PLAYER_CONFIG], by norm_num [PLAYER_CONFIG], ?_⟩
  exact gravity_clamped PLAYER_CONFIG PLAYER_CONFIG 550 (1/10) (1/60) bodyRest intentPress
    (by norm_num [PLAYER_CONFIG]) (by norm_num [PLAYER_CONFIG])

/-- C7: if the jump input was just released while the vertical velocity is
negative (upward), the integrator's variable-height step multiplies it by
exactly 0.5, strictly reducing its magnitude; a jump release with vertical
velocity ≥ 0 never changes it. -/
theorem variable_height_halves (i j : InputIntent) (v w : ℚ)
    (hrel : i.jumpJustReleased = true) (hv : v < 0) (hw : 0 ≤ w) :
    varHeightStep i v = v * (1/2) ∧ |varHeightStep i v| < |v| ∧ varHeightStep j w = w := by
  have h1 : varHeightStep i v = v * (1/2) := by
    unfold varHeightStep
    simp [hrel, hv]
  refine ⟨h1, ?_, ?_⟩
  · rw [h1, abs_mul]
    have hv' : 0 < |v| := abs_pos.mpr (ne_of_lt hv)
    rw [abs_of_pos (by norm_num : (0:ℚ) < 1/2)]
    nlinarith
  · unfold varHeightStep
    simp [not_lt.mpr hw]

/-- Witness for C7 at a concrete input. -/
theorem variable_height_halves_witness :
    intentRelease.jumpJustReleased = true ∧ (-300 : ℚ) < 0 ∧ (0:ℚ) ≤ 25 ∧
    varHeightStep intentRelease (-300) = (-300) * (1/2) ∧
    varHeightStep intentPress 25 = 25 := by
  refine ⟨rfl, by norm_num, by norm_num, ?_, ?_⟩
  · exact (variable_height_halves intentRelease intentPress (-300) 25 rfl (by norm_num)
      (by norm_num)).1
  · exact (variable_height_halves intentRelease intentPress (-300) 25 rfl (by norm_num)
      (by norm_num)).2.2

/-! ## Helper lemmas: floor arithmetic on the tile grid -/

lemma le_floorT_iff (z : ℤ) (a : ℚ) : z ≤ ⌊a / TILE_SIZE⌋ ↔ (z : ℚ) * TILE_SIZE ≤ a := by
  rw [Int.le_floor, le_div_iff₀ (by norm_num [TILE_SIZE] : (0:ℚ) < TILE_SIZE)]

lemma floorT_lt_iff (z : ℤ) (a : ℚ) : ⌊a / TILE_SIZE⌋ < z ↔ a < (z : ℚ) * TILE_SIZE := by
  rw [Int.floor_lt, div_lt_iff₀ (by norm_num [TILE_SIZE] : (0:ℚ) < TILE_SIZE)]

lemma floorT_eq (k : ℤ) (a : ℚ) (h1 : (k : ℚ) * TILE_SIZE ≤ a)
    (h2 : a < ((k : ℚ) + 1) * TILE_SIZE) : ⌊a / TILE_SIZE⌋ = k := by
  have l1 : k ≤ ⌊a / TILE_SIZE⌋ := (le_floorT_iff k a).mpr h1
  have l2 : ⌊a / TILE_SIZE⌋ < k + 1 := (floorT_lt_iff (k + 1) a).mpr (by push_cast; linarith)
  omega

lemma floorT_mul_le (a : ℚ) : (⌊a / TILE_SIZE⌋ : ℚ) * TILE_SIZE ≤ a :=
  (le_floorT_iff ⌊a / TILE_SIZE⌋ a).mp le_rfl

lemma lt_floorT_succ (a : ℚ) : a < ((⌊a / TILE_SIZE⌋ : ℚ) + 1) * TILE_SIZE := by
  have := (floorT_lt_iff (⌊a / TILE_SIZE⌋ + 1) a).mp (by omega)
  push_cast at this
  linarith

/-- Two points at distance at most one tile have floor cells at distance at
most one. -/
lemma floorT_gap (a c : ℚ) (hgap : c ≤ a + TILE_SIZE) :
    ⌊c / TILE_SIZE⌋ ≤ ⌊a / TILE_SIZE⌋ + 1 := by
  have h1 : (⌊a / TILE_SIZE⌋ : ℚ) * TILE_SIZE ≤ a := floorT_mul_le a
  have : c < ((⌊a / TILE_SIZE⌋ + 1 : ℤ) + 1 : ℚ) * TILE_SIZE := by
    push_cast
    have := lt_floorT_succ a
    norm_num [TILE_SIZE] at *
    linarith
  have := (floorT_lt_iff (⌊a / TILE_SIZE⌋ + 1 + 1) c).mpr (by push_cast at this ⊢; linarith)
  omega

lemma floorT_mono (a c : ℚ) (hac : a ≤ c) : ⌊a / TILE_SIZE⌋ ≤ ⌊c / TILE_SIZE⌋ :=
  Int.floor_le_floor (by
    exact div_le_div_of_nonneg_right hac (by norm_num [TILE_SIZE]))

/-! ## Helper lemmas: resolver characterizations -/

lemma resolveX_zero (m : TileMap) (b : KinematicBody) : resolveX m b 0 = b := by
  unfold resolveX
  simp

lemma resolveY_zero (m : TileMap) (b : KinematicBody) : resolveY m b 0 = b := by
  unfold resolveY
  simp

lemma resolveY_down_hit (m : TileMap) (b : KinematicBody) (dy : ℚ) (hdy : 0 < dy)
    (hhit : (isSolidAt m (b.position.x + SAMPLE_INSET) (b.position.y + dy + b.size.y) ||
             isSolidAt m (b.position.x + b.size.x / 2) (b.position.y + dy + b.size.y) ||
             isSolidAt m (b.position.x + b.size.x - SAMPLE_INSET) (b.position.y + dy + b.size.y))
            = true) :
    resolveY m b dy =
      { b with
        position := { b.position with
          y := (⌊(b.position.y + dy + b.size.y) / TILE_SIZE⌋ : ℚ) * TILE_SIZE - b.size.y }
        velocity := { b.velocity with y := 0 }
        grounded := true } := by
  unfold resolveY
  rw [if_neg (ne_of_gt hdy)]
  simp only [if_pos hdy]
  rw [if_pos hhit]

lemma resolveY_down_miss (m : TileMap) (b : KinematicBody) (dy : ℚ) (hdy : 0 < dy)
    (hmiss : (isSolidAt m (b.position.x + SAMPLE_INSET) (b.position.y + dy + b.size.y) ||
              isSolidAt m (b.position.x + b.size.x / 2) (b.position.y + dy + b.size.y) ||
              isSolidAt m (b.position.x + b.size.x - SAMPLE_INSET) (b.position.y + dy + b.size.y))
             = false) :
    resolveY m b dy =
      { b with position := { b.position with y := b.position.y + dy }, grounded := false } := by
  unfold resolveY
  rw [if_neg (ne_of_gt hdy)]
  simp only [if_pos hdy]
  rw [if_neg (by rw [hmiss]; exact Bool.false_ne_true)]

lemma resolveY_up_hit (m : TileMap) (b : KinematicBody) (dy : ℚ) (hdy : dy < 0)
    (hhit : (isSolidAt m (b.position.x + SAMPLE_INSET) (b.position.y + dy) ||
             isSolidAt m (b.position.x + b.size.x / 2) (b.position.y + dy) ||
             isSolidAt m (b.position.x + b.size.x - SAMPLE_INSET) (b.position.y + dy))
            = true) :
    resolveY m b dy =
      { b with
        position := { b.position with
          y := ((⌊(b.position.y + dy) / TILE_SIZE⌋ : ℚ) + 1) * TILE_SIZE }
        velocity := { b.velocity with y := 0 } } := by
  unfold resolveY
  rw [if_neg (ne_of_lt hdy)]
  simp only [if_neg (not_lt.mpr (le_of_lt hdy))]
  rw [if_pos hhit]

lemma resolveY_up_miss (m : TileMap) (b : KinematicBody) (dy : ℚ) (hdy : dy < 0)
    (hmiss : (isSolidAt m (b.position.x + SAMPLE_INSET) (b.position.y + dy) ||
              isSolidAt m (b.position.x + b.size.x / 2) (b.position.y + dy) ||
              isSolidAt m (b.position.x + b.size.x - SAMPLE_INSET) (b.position.y + dy))
             = false) :
    resolveY m b dy =
      { b with position := { b.position with y := b.position.y + dy }, grounded := false } := by
  unfold resolveY
  rw [if_neg (ne_of_lt hdy)]
  simp only [if_neg (not_lt.mpr (le_of_lt hdy))]
  rw [if_neg (by rw [hmiss]; exact Bool.false_ne_true)]

lemma resolveX_right_hit (m : TileMap) (b : KinematicBody) (dx : ℚ) (hdx : 0 < dx)
    (hhit : (isSolidAt m (b.position.x + dx + b.size.x) (b.position.y + SAMPLE_INSET) ||
             isSolidAt m (b.position.x + dx + b.size.x) (b.position.y + b.size.y / 2) ||
             isSolidAt m (b.position.x + dx + b.size.x) (b.position.y + b.size.y - SAMPLE_INSET))
            = true) :
    resolveX m b dx =
      { b with
        position := { b.position with
          x := (⌊(b.position.x + dx + b.size.x) / TILE_SIZE⌋ : ℚ) * TILE_SIZE - b.size.x }
        velocity := { b.velocity with x := 0 } } := by
  unfold resolveX
  rw [if_neg (ne_of_gt hdx)]
  simp only [if_pos hdx]
  rw [if_pos hhit]

lemma resolveX_right_miss (m : TileMap) (b : KinematicBody) (dx : ℚ) (hdx : 0 < dx)
    (hmiss : (isSolidAt m (b.position.x + dx + b.size.x) (b.position.y + SAMPLE_INSET) ||
              isSolidAt m (b.position.x + dx + b.size.x) (b.position.y + b.size.y / 2) ||
              isSolidAt m (b.position.x + dx + b.size.x) (b.position.y + b.size.y - SAMPLE_INSET))
             = false) :
    resolveX m b dx =
      { b with position := { b.position with x := b.position.x + dx } } := by
  unfold resolveX
  rw [if_neg (ne_of_gt hdx)]
  simp only [if_pos hdx]
  rw [if_neg (by rw [hmiss]; exact Bool.false_ne_true)]

lemma resolveX_left_hit (m : TileMap) (b : KinematicBody) (dx : ℚ) (hdx : dx < 0)
    (hhit : (isSolidAt m (b.position.x + dx) (b.position.y + SAMPLE_INSET) ||
             isSolidAt m (b.position.x + dx) (b.position.y + b.size.y / 2) ||
             isSolidAt m (b.position.x + dx) (b.position.y + b.size.y - SAMPLE_INSET))
            = true) :
    resolveX m b dx =
      { b with
        position := { b.position with
          x := ((⌊(b.position.x + dx) / TILE_SIZE⌋ : ℚ) + 1) * TILE_SIZE }
        velocity := { b.velocity with x := 0 } } := by
  unfold resolveX
  rw [if_neg (ne_of_lt hdx)]
  simp only [if_neg (not_lt.mpr (le_of_lt hdx))]
  rw [if_pos hhit]

lemma resolveX_left_miss (m : TileMap) (b : KinematicBody) (dx : ℚ) (hdx : dx < 0)
    (hmiss : (isSolidAt m (b.position.x + dx) (b.position.y + SAMPLE_INSET) ||
              isSolidAt m (b.position.x + dx) (b.position.y + b.size.y / 2) ||
              isSolidAt m (b.position.x + dx) (b.position.y + b.size.y - SAMPLE_INSET))
             = false) :
    resolveX m b dx =
      { b with position := { b.position with x := b.position.x + dx } } := by
  unfold resolveX
  rw [if_neg (ne_of_lt hdx)]
  simp only [if_neg (not_lt.mpr (le_of_lt hdx))]
  rw [if_neg (by rw [hmiss]; exact Bool.false_ne_true)]
lemma approach_between_le (v t s : ℚ) (hs : 0 ≤ s) (h : v ≤ t) :
    v ≤ approach v t s ∧ approach v t s ≤ t := by
  unfold approach
  split_ifs with h1 h2
  · exact ⟨le_min (by linarith) (le_of_lt h1), min_le_right _ _⟩
  · exact absurd h (not_le.mpr h2)
  · exact ⟨le_rfl, h⟩

lemma approach_between_ge (v t s : ℚ) (hs : 0 ≤ s) (h : t ≤ v) :
    t ≤ approach v t s ∧ approach v t s ≤ v := by
  unfold approach
  split_ifs with h1 h2
  · exact absurd h (not_le.mpr h1)
  · exact ⟨le_max_right _ _, max_le (by linarith) h⟩
  · exact ⟨h, le_rfl⟩

lemma horizStep_none_zero (cfg : MovementConfig) (dt : ℚ) :
    horizStep cfg intentNone 0 dt = 0 := by
  unfold horizStep targetSpeed approach
  simp [intentNone]

lemma integrate_none (cfg : MovementConfig) (b : KinematicBody) (dt : ℚ)
    (hv0 : b.velocity = ⟨0, 0⟩) :
    integrate cfg b intentNone dt =
      { b with velocity := ⟨0, gravityStep cfg 0 dt⟩ } := by
  unfold integrate
  have h1 : intentNone.jumpJustPressed = false := rfl
  have h2 : intentNone.jumpJustReleased = false := rfl
  simp only [h1, Bool.false_and, if_false, Bool.false_eq_true]
  unfold varHeightStep
  simp only [h2, Bool.false_and, if_false, Bool.false_eq_true]
  rw [hv0]
  simp only []
  rw [horizStep_none_zero]

lemma tick_rest (cfg : MovementConfig) (m : TileMap) (b : KinematicBody) (dt : ℚ) (k : ℤ)
    (hdt : 0 ≤ dt) (hG : 0 ≤ cfg.GRAVITY) (hMF : 0 ≤ cfg.MAX_FALL_SPEED)
    (hGdt : cfg.GRAVITY * dt * dt < TILE_SIZE)
    (hv0 : b.velocity = ⟨0, 0⟩) (hgr : b.grounded = true)
    (hk : b.position.y + b.size.y = (k : ℚ) * TILE_SIZE)
    (hsolid : m ⌊(b.position.x + b.size.x / 2) / TILE_SIZE⌋ k = true) :
    (tick cfg m b intentNone dt).position = b.position ∧
    (tick cfg m b intentNone dt).size = b.size ∧
    (tick cfg m b intentNone dt).velocity = ⟨0, 0⟩ ∧
    (tick cfg m b intentNone dt).grounded = true := by
  by_cases h0 : dt = 0
  · subst h0
    rw [tick_zero_dt_noop]
    exact ⟨rfl, rfl, hv0, hgr⟩
  · have hdtpos : 0 < dt := lt_of_le_of_ne hdt (Ne.symm h0)
    rw [tick_of_ne cfg m b intentNone dt h0]
    set b1 := updateTimers cfg intentNone b dt with hb1def
    have hb1v : b1.velocity = ⟨0, 0⟩ := by rw [hb1def, updateTimers_velocity, hv0]
    have hb2 : integrate cfg b1 intentNone dt =
        { b1 with velocity := ⟨0, gravityStep cfg 0 dt⟩ } := integrate_none cfg b1 dt hb1v
    rw [hb2]
    set g := gravityStep cfg 0 dt with hgdef
    have hg0 : 0 ≤ g := le_min (by nlinarith) hMF
    have hgB : g * dt < TILE_SIZE := by
      have h1 : g ≤ cfg.GRAVITY * dt := by
        rw [hgdef]
        unfold gravityStep
        have := min_le_left (0 + cfg.GRAVITY * dt) cfg.MAX_FALL_SPEED
        linarith
      nlinarith
    set b2 : KinematicBody := { b1 with velocity := ⟨0, gravityStep cfg 0 dt⟩ } with hb2def
    have hrx : resolveX m b2 (b2.velocity.x * dt) = b2 := by
      have : b2.velocity.x * dt = 0 := by
        show (0 : ℚ) * dt = 0
        ring
      rw [this, resolveX_zero]
    rw [hrx]
    have hvy2 : b2.velocity.y = g := rfl
    rw [hvy2]
    by_cases hdy0 : g * dt = 0
    · rw [hdy0, resolveY_zero]
      rw [hgr, reconcileBuffer_of_wasGrounded]
      have hgz : g = 0 := by
        rcases mul_eq_zero.mp hdy0 with h | h
        · exact h
        · exact absurd h h0
      refine ⟨rfl, rfl, ?_, hgr⟩
      show (⟨0, g⟩ : Vec2) = ⟨0, 0⟩
      rw [hgz]
    · have hdypos : 0 < g * dt := lt_of_le_of_ne (mul_nonneg hg0 hdt) (Ne.symm hdy0)
      have hedge : b2.position.y + g * dt + b2.size.y = (k : ℚ) * TILE_SIZE + g * dt := by
        have hpy : b2.position.y = b.position.y := rfl
        have hsy : b2.size.y = b.size.y := rfl
        rw [hpy, hsy]
        linarith [hk]
      have hfloor : ⌊(b2.position.y + g * dt + b2.size.y) / TILE_SIZE⌋ = k := by
        rw [hedge]
        exact floorT_eq k _ (by linarith) (by linarith)
      have hhit : (isSolidAt m (b2.position.x + SAMPLE_INSET) (b2.position.y + g * dt + b2.size.y) ||
             isSolidAt m (b2.position.x + b2.size.x / 2) (b2.position.y + g * dt + b2.size.y) ||
             isSolidAt m (b2.position.x + b2.size.x - SAMPLE_INSET) (b2.position.y + g * dt + b2.size.y))
            = true := by
        have hmid : isSolidAt m (b2.position.x + b2.size.x / 2)
            (b2.position.y + g * dt + b2.size.y) = true := by
          unfold isSolidAt
          rw [hfloor]
          have hpx : b2.position.x = b.position.x := rfl
          have hsx : b2.size.x = b.size.x := rfl
          rw [hpx, hsx]
          exact hsolid
        rw [hmid]
        simp
      rw [resolveY_down_hit m b2 (g * dt) hdypos hhit]
      have hsnap : (⌊(b2.position.y + g * dt + b2.size.y) / TILE_SIZE⌋ : ℚ) * TILE_SIZE - b2.size.y
          = b.position.y := by
        rw [hfloor]
        have hsy : b2.size.y = b.size.y := rfl
        rw [hsy]
        linarith [hk]
      rw [hgr]
      have hrec : ∀ bb : KinematicBody, reconcileBuffer cfg true bb = bb :=
        fun bb => reconcileBuffer_of_wasGrounded cfg bb
      rw [hrec]
      refine ⟨?_, rfl, rfl, rfl⟩
      show ({ b2.position with y := (⌊(b2.position.y + g * dt + b2.size.y) / TILE_SIZE⌋ : ℚ) *
          TILE_SIZE - b2.size.y } : Vec2) = b.position
      rw [hfloor]
      have hyv : (k : ℚ) * TILE_SIZE - b2.size.y = b.position.y := by
        have hsy : b2.size.y = b.size.y := rfl
        rw [hsy]
        linarith [hk]
      rw [hyv]
      rfl

/-- C5 (amended): for all Δt ≥ 0 the horizontal velocity update is a clamped
linear approach that never overshoots its target (would-be crossings snap
exactly to the target, so a friction step toward 0 is monotone and never
crosses zero); and repeated ticks with zero input intent on a body at rest on
solid ground leave the position unchanged with horizontal velocity identically
0, provided the per-tick gravity displacement stays below one tile
(GRAVITY·Δt·Δt < TILE_SIZE).  Without that proviso the at-rest part of the
claim is false: the resolver samples only the end position, so a gravity
displacement of a tile or more skips the supporting row and the body falls
through its floor (see the counterexample). -/
theorem horizontal_no_overshoot_and_rest (cfg : MovementConfig) (m : TileMap)
    (b : KinematicBody) (dt : ℚ) (n : ℕ) (v t s : ℚ) (k : ℤ)
    (hs : 0 ≤ s) (hdt : 0 ≤ dt)
    (hG : 0 ≤ cfg.GRAVITY) (hMF : 0 ≤ cfg.MAX_FALL_SPEED)
    (hGdt : cfg.GRAVITY * dt * dt < TILE_SIZE)
    (hv0 : b.velocity = ⟨0, 0⟩) (hgr : b.grounded = true)
    (hk : b.position.y + b.size.y = (k : ℚ) * TILE_SIZE)
    (hsolid : m ⌊(b.position.x + b.size.x / 2) / TILE_SIZE⌋ k = true) :
    (v ≤ t → v ≤ approach v t s ∧ approach v t s ≤ t) ∧
    (t ≤ v → t ≤ approach v t s ∧ approach v t s ≤ v) ∧
    (0 ≤ v → 0 ≤ approach v 0 s ∧ approach v 0 s ≤ v) ∧
    (v ≤ 0 → v ≤ approach v 0 s ∧ approach v 0 s ≤ 0) ∧
    (iterTick cfg m intentNone dt n b).position = b.position ∧
    (iterTick cfg m intentNone dt n b).velocity.x = 0 := by
  have main : ∀ (nn : ℕ) (bb : KinematicBody), bb.velocity = ⟨0, 0⟩ → bb.grounded = true →
      bb.position.y + bb.size.y = (k : ℚ) * TILE_SIZE →
      m ⌊(bb.position.x + bb.size.x / 2) / TILE_SIZE⌋ k = true →
      (iterTick cfg m intentNone dt nn bb).position = bb.position ∧
      (iterTick cfg m intentNone dt nn bb).size = bb.size ∧
      (iterTick cfg m intentNone dt nn bb).velocity = ⟨0, 0⟩ ∧
      (iterTick cfg m intentNone dt nn bb).grounded = true := by
    intro nn
    induction nn with
    | zero => exact fun bb h1 h2 _ _ => ⟨rfl, rfl, h1, h2⟩
    | succ nn ih =>
      intro bb h1 h2 h3 h4
      have ht := tick_rest cfg m bb dt k hdt hG hMF hGdt h1 h2 h3 h4
      have hstep : iterTick cfg m intentNone dt (nn + 1) bb =
          iterTick cfg m intentNone dt nn (tick cfg m bb intentNone dt) := rfl
      have h3' : (tick cfg m bb intentNone dt).position.y +
          (tick cfg m bb intentNone dt).size.y = (k : ℚ) * TILE_SIZE := by
        rw [ht.1, ht.2.1]
        exact h3
      have h4' : m ⌊((tick cfg m bb intentNone dt).position.x +
          (tick cfg m bb intentNone dt).size.x / 2) / TILE_SIZE⌋ k = true := by
        rw [ht.1, ht.2.1]
        exact h4
      have hrec := ih (tick cfg m bb intentNone dt) ht.2.2.1 ht.2.2.2 h3' h4'
      refine ⟨?_, ?_, ?_, ?_⟩ <;> rw [hstep]
      · rw [hrec.1, ht.1]
      · rw [hrec.2.1, ht.2.1]
      · exact hrec.2.2.1
      · exact hrec.2.2.2
  have hmain := main n b hv0 hgr hk hsolid
  refine ⟨approach_between_le v t s hs, approach_between_ge v t s hs,
    fun hv => approach_between_ge v 0 s hs hv, fun hv => approach_between_le v 0 s hs hv,
    hmain.1, ?_⟩
  rw [hmain.2.2.1]

/-- Witness for C5 at a concrete input. -/
theorem horizontal_no_overshoot_and_rest_witness :
    (iterTick PLAYER_CONFIG mapFloor intentNone (1/60) 2 bodyRest).position =
      bodyRest.position ∧
    (iterTick PLAYER_CONFIG mapFloor intentNone (1/60) 2 bodyRest).velocity.x = 0 ∧
    (5 : ℚ) ≤ approach 5 10 1 ∧ approach 5 10 1 ≤ 10 ∧
    0 ≤ approach 7 0 3 ∧ approach 7 0 3 ≤ 7 := by
  obtain ⟨hA, -, -, -, hD, hE⟩ :=
    horizontal_no_overshoot_and_rest PLAYER_CONFIG mapFloor bodyRest (1/60) 2 5 10 1 1
      (by norm_num) (by norm_num) (by norm_num [PLAYER_CONFIG]) (by norm_num [PLAYER_CONFIG])
      (by norm_num [PLAYER_CONFIG, TILE_SIZE]) rfl rfl
      (by norm_num [bodyRest, TILE_SIZE]) (by norm_num [bodyRest, TILE_SIZE, mapFloor])
  obtain ⟨-, -, hC, -, -, -⟩ :=
    horizontal_no_overshoot_and_rest PLAYER_CONFIG mapFloor bodyRest (1/60) 2 7 10 3 1
      (by norm_num) (by norm_num) (by norm_num [PLAYER_CONFIG]) (by norm_num [PLAYER_CONFIG])
      (by norm_num [PLAYER_CONFIG, TILE_SIZE]) rfl rfl
      (by norm_num [bodyRest, TILE_SIZE]) (by norm_num [bodyRest, TILE_SIZE, mapFloor])
  have h1 := hA (by norm_num)
  have h2 := hC (by norm_num)
  exact ⟨hD, hE, h1.1, h1.2, h2.1, h2.2⟩

lemma max_sub_chain (a e : ℚ) (he : 0 ≤ e) : max (max a 0 - e) 0 = max (a - e) 0 := by
  rcases le_total a 0 with h | h
  · rw [max_eq_right h, max_eq_right (by linarith : (0:ℚ) - e ≤ 0),
      max_eq_right (by linarith : a - e ≤ 0)]
  · rw [max_eq_left h]

lemma integrate_coyote_nopress (cfg : MovementConfig) (b : KinematicBody) (i : InputIntent)
    (d : ℚ) (hnp : i.jumpJustPressed = false) :
    (integrate cfg b i d).coyoteTimer = b.coyoteTimer := by
  unfold integrate
  dsimp only
  rw [hnp]
  simp

lemma integrate_velY_jump (cfg : MovementConfig) (b : KinematicBody) (i : InputIntent)
    (d : ℚ) (hp : i.jumpJustPressed = true) (hr : i.jumpJustReleased = false)
    (hcj : canJump b = true) :
    (integrate cfg b i d).velocity.y = cfg.JUMP_VELOCITY := by
  unfold integrate varHeightStep
  dsimp only
  rw [hp, hcj, hr]
  simp

lemma integrate_velY_nojump (cfg : MovementConfig) (b : KinematicBody) (i : InputIntent)
    (d : ℚ) (hr : i.jumpJustReleased = false) (hcj : (i.jumpJustPressed && canJump b) = false) :
    (integrate cfg b i d).velocity.y = gravityStep cfg b.velocity.y d := by
  unfold integrate varHeightStep
  dsimp only
  rw [hcj, hr]
  simp

lemma tick_coyote_airborne (cfg : MovementConfig) (m : TileMap) (b : KinematicBody)
    (i : InputIntent) (d : ℚ) (hd : d ≠ 0) (hg : b.grounded = false)
    (hnp : i.jumpJustPressed = false) :
    (tick cfg m b i d).coyoteTimer = max (b.coyoteTimer - d) 0 := by
  rw [tick_of_ne cfg m b i d hd, reconcileBuffer_coyote, resolveY_coyote, resolveX_coyote,
    integrate_coyote_nopress cfg _ i d hnp]
  unfold updateTimers
  dsimp only
  rw [hg]
  simp

lemma runTicks_coyote (cfg : MovementConfig) (m : TileMap) :
    ∀ (steps : List (InputIntent × ℚ)) (b0 : KinematicBody),
    (∀ n, n ≤ steps.length → (runTicks cfg m b0 (steps.take n)).grounded = false) →
    (∀ p ∈ steps, p.1.jumpJustPressed = false ∧ 0 ≤ p.2) →
    0 ≤ b0.coyoteTimer →
    (runTicks cfg m b0 steps).coyoteTimer = max (b0.coyoteTimer - (steps.map Prod.snd).sum) 0
  | [], b0, _, _, hc => by
      simp only [runTicks, List.map_nil, List.sum_nil, sub_zero]
      exact (max_eq_left hc).symm
  | p :: rest, b0, hg, hnp, hc => by
      have hg0 : b0.grounded = false := by
        have := hg 0 (by omega)
        simpa [runTicks] using this
      have hp := hnp p (List.mem_cons_self p rest)
      have hrest_np : ∀ q ∈ rest, q.1.jumpJustPressed = false ∧ 0 ≤ q.2 :=
        fun q hq => hnp q (List.mem_cons_of_mem p hq)
      have hsum_nonneg : 0 ≤ (rest.map Prod.snd).sum := by
        apply List.sum_nonneg
        intro a ha
        obtain ⟨q, hq, rfl⟩ := List.mem_map.mp ha
        exact (hrest_np q hq).2
      have hg' : ∀ n, n ≤ rest.length →
          (runTicks cfg m (tick cfg m b0 p.1 p.2) (rest.take n)).grounded = false := by
        intro n hn
        have := hg (n + 1) (by simpa using Nat.succ_le_succ hn)
        simpa [runTicks] using this
      show (runTicks cfg m (tick cfg m b0 p.1 p.2) rest).coyoteTimer = _
      by_cases hd : p.2 = 0
      · have ht : tick cfg m b0 p.1 p.2 = b0 := by
          rw [hd]
          exact tick_zero_dt_noop cfg m b0 p.1
        rw [ht] at hg' ⊢
        rw [runTicks_coyote cfg m rest b0 hg' hrest_np hc]
        simp [hd]
      · have ht : (tick cfg m b0 p.1 p.2).coyoteTimer = max (b0.coyoteTimer - p.2) 0 :=
          tick_coyote_airborne cfg m b0 p.1 p.2 hd hg0 hp.1
        have hc' : 0 ≤ (tick cfg m b0 p.1 p.2).coyoteTimer := by
          rw [ht]
          exact le_max_right _ _
        rw [runTicks_coyote cfg m rest (tick cfg m b0 p.1 p.2) hg' hrest_np hc', ht,
          max_sub_chain _ _ hsum_nonneg]
        have : b0.coyoteTimer - p.2 - (rest.map Prod.snd).sum =
            b0.coyoteTimer - ((p :: rest).map Prod.snd).sum := by
          simp
          ring
        rw [this]

/-- C8: coyote time.  For a body that became ungrounded at tick T without
jumping (state `b0`: airborne with a freshly reset coyote timer, which is
exactly what the timer update of tick T produces while the body was still
grounded at its start — last conjunct), after any further airborne no-press
ticks `steps`, a jump press arriving when the elapsed time since T is strictly
less than COYOTE_TIME makes `canJump` true and the integrator perform the jump
(vertical velocity becomes JUMP_VELOCITY); at elapsed time at least COYOTE_TIME
it does not jump, the integrator leaving only the gravity update.  Moreover
`canJump` is true exactly when the body is grounded or its coyote timer is
positive. -/
theorem coyote_time_window (cfg : MovementConfig) (m : TileMap) (b0 : KinematicBody)
    (steps : List (InputIntent × ℚ)) (press : InputIntent) (dtk : ℚ)
    (hc0 : b0.coyoteTimer = cfg.COYOTE_TIME) (hCT : 0 ≤ cfg.COYOTE_TIME)
    (hair : ∀ n, n ≤ steps.length → (runTicks cfg m b0 (steps.take n)).grounded = false)
    (hnp : ∀ p ∈ steps, p.1.jumpJustPressed = false ∧ 0 ≤ p.2)
    (hpress : press.jumpJustPressed = true) (hprel : press.jumpJustReleased = false)
    (hdtk : 0 ≤ dtk) :
    (canJump (updateTimers cfg press (runTicks cfg m b0 steps) dtk) = true ↔
      (steps.map Prod.snd).sum + dtk < cfg.COYOTE_TIME) ∧
    ((steps.map Prod.snd).sum + dtk < cfg.COYOTE_TIME →
      (integrate cfg (updateTimers cfg press (runTicks cfg m b0 steps) dtk) press
        dtk).velocity.y = cfg.JUMP_VELOCITY) ∧
    (cfg.COYOTE_TIME ≤ (steps.map Prod.snd).sum + dtk →
      (integrate cfg (updateTimers cfg press (runTicks cfg m b0 steps) dtk) press
        dtk).velocity.y = gravityStep cfg (runTicks cfg m b0 steps).velocity.y dtk) ∧
    (∀ bb : KinematicBody, canJump bb = true ↔ (bb.grounded = true ∨ 0 < bb.coyoteTimer)) ∧
    (∀ (bb : KinematicBody) (i : InputIntent) (d : ℚ), bb.grounded = true →
      (updateTimers cfg i bb d).coyoteTimer = cfg.COYOTE_TIME) := by
  set bT := runTicks cfg m b0 steps with hbT
  have hgT : bT.grounded = false := by
    have := hair steps.length le_rfl
    simpa using this
  have hcT : bT.coyoteTimer = max (cfg.COYOTE_TIME - (steps.map Prod.snd).sum) 0 := by
    rw [hbT, runTicks_coyote cfg m steps b0 hair hnp (by rw [hc0]; exact hCT), hc0]
  set bU := updateTimers cfg press bT dtk with hbU
  have hgU : bU.grounded = false := by
    rw [hbU, updateTimers_grounded]
    exact hgT
  have hcU : bU.coyoteTimer = max (cfg.COYOTE_TIME - ((steps.map Prod.snd).sum + dtk)) 0 := by
    rw [hbU]
    show (if bT.grounded then cfg.COYOTE_TIME else max (bT.coyoteTimer - dtk) 0) = _
    rw [hgT]
    simp only [Bool.false_eq_true, if_false]
    rw [hcT, max_sub_chain _ _ hdtk]
    congr 1
    ring
  have hvU : bU.velocity.y = bT.velocity.y := by
    rw [hbU, updateTimers_velocity]
  have hcj : canJump bU = true ↔ (steps.map Prod.snd).sum + dtk < cfg.COYOTE_TIME := by
    unfold canJump
    rw [hgU]
    simp only [Bool.false_or, decide_eq_true_eq, hcU]
    constructor
    · intro h
      rcases lt_max_iff.mp h with h' | h'
      · linarith
      · exact absurd h' (lt_irrefl 0)
    · intro h
      exact lt_max_iff.mpr (Or.inl (by linarith))
  refine ⟨hcj, ?_, ?_, ?_, ?_⟩
  · intro h
    exact integrate_velY_jump cfg bU press dtk hpress hprel (hcj.mpr h)
  · intro h
    have hfalse : canJump bU = false := by
      have hne : ¬ (canJump bU = true) := fun ht => absurd (hcj.mp ht) (not_lt.mpr h)
      exact Bool.eq_false_iff.mpr hne
    have := integrate_velY_nojump cfg bU press dtk hprel (by rw [hfalse, Bool.and_false])
    rw [this, hvU]
  · intro bb
    unfold canJump
    simp
  · intro bb i d hg
    unfold updateTimers
    dsimp only
    rw [hg]
    simp

/-- Witness for C8 at a concrete input (elapsed 30 < 100 jumps, 150 does not). -/
theorem coyote_time_window_witness :
    (canJump (updateTimers PLAYER_CONFIG intentPress bodyAir 30) = true) ∧
    (integrate PLAYER_CONFIG (updateTimers PLAYER_CONFIG intentPress bodyAir 30)
      intentPress 30).velocity.y = PLAYER_CONFIG.JUMP_VELOCITY ∧
    (canJump (updateTimers PLAYER_CONFIG intentPress bodyAir 150) = false) := by
  have hair : ∀ n, n ≤ ([] : List (InputIntent × ℚ)).length →
      (runTicks PLAYER_CONFIG mapEmpty bodyAir (([] : List (InputIntent × ℚ)).take n)).grounded
        = false := by
    intro n hn
    have hn0 : n = 0 := by simpa using hn
    subst hn0
    rfl
  have hnp : ∀ p ∈ ([] : List (InputIntent × ℚ)),
      p.1.jumpJustPressed = false ∧ 0 ≤ p.2 := by
    intro p hp
    exact absurd hp (List.not_mem_nil p)
  obtain ⟨hA, hB, -, -, -⟩ :=
    coyote_time_window PLAYER_CONFIG mapEmpty bodyAir [] intentPress 30 rfl
      (by norm_num [PLAYER_CONFIG]) hair hnp rfl rfl (by norm_num)
  obtain ⟨hC, -, -, -, -⟩ :=
    coyote_time_window PLAYER_CONFIG mapEmpty bodyAir [] intentPress 150 rfl
      (by norm_num [PLAYER_CONFIG]) hair hnp rfl rfl (by norm_num)
  refine ⟨?_, ?_, ?_⟩
  · exact hA.mpr (by norm_num [PLAYER_CONFIG])
  · exact hB (by norm_num [PLAYER_CONFIG])
  · have hne : ¬ (canJump (updateTimers PLAYER_CONFIG intentPress bodyAir 150) = true) := by
      intro ht
      have := hC.mp ht
      norm_num [PLAYER_CONFIG] at this
    exact Bool.eq_false_iff.mpr hne

lemma intT_le (c C : ℤ) (h : c ≤ C) : (c : ℚ) * TILE_SIZE ≤ (C : ℚ) * TILE_SIZE := by
  have hT : (0:ℚ) < TILE_SIZE := by norm_num [TILE_SIZE]
  have : (c : ℚ) ≤ (C : ℚ) := by exact_mod_cast h
  nlinarith

lemma intT_lt (c C : ℤ) (h : (c : ℚ) * TILE_SIZE < (C : ℚ) * TILE_SIZE) : c < C := by
  have hT : (0:ℚ) < TILE_SIZE := by norm_num [TILE_SIZE]
  have : (c : ℚ) < (C : ℚ) := lt_of_mul_lt_mul_right h (le_of_lt hT)
  exact_mod_cast this

lemma extent_le_inset_low (a s : ℚ) (c : ℤ)
    (h : ((c : ℚ) + 1) * TILE_SIZE ≤ a + SAMPLE_INSET) :
    min (a + s) (((c : ℚ) + 1) * TILE_SIZE) - max a ((c : ℚ) * TILE_SIZE) ≤ SAMPLE_INSET := by
  have h1 := min_le_right (a + s) (((c : ℚ) + 1) * TILE_SIZE)
  have h2 := le_max_left a ((c : ℚ) * TILE_SIZE)
  linarith

lemma extent_le_inset_high (a s : ℚ) (c : ℤ)
    (h : a + s - SAMPLE_INSET ≤ (c : ℚ) * TILE_SIZE) :
    min (a + s) (((c : ℚ) + 1) * TILE_SIZE) - max a ((c : ℚ) * TILE_SIZE) ≤ SAMPLE_INSET := by
  have h1 := min_le_left (a + s) (((c : ℚ) + 1) * TILE_SIZE)
  have h2 := le_max_right a ((c : ℚ) * TILE_SIZE)
  linarith

/-- One-dimensional sampling coverage: a tile index whose cell overlaps the
interval `(a, a+s)` is either one of the three sampled cells, or clips the
interval by at most the inset at one of its two ends. -/
lemma sample_cover (a s : ℚ) (c : ℤ) (hs1 : 2 * SAMPLE_INSET < s) (hs2 : s ≤ TILE_SIZE) :
    c = ⌊(a + SAMPLE_INSET) / TILE_SIZE⌋ ∨ c = ⌊(a + s / 2) / TILE_SIZE⌋ ∨
    c = ⌊(a + s - SAMPLE_INSET) / TILE_SIZE⌋ ∨
    ((c : ℚ) + 1) * TILE_SIZE ≤ a + SAMPLE_INSET ∨
    a + s - SAMPLE_INSET ≤ (c : ℚ) * TILE_SIZE := by
  have hI : SAMPLE_INSET = 2 := rfl
  have hT : TILE_SIZE = 16 := rfl
  set c1 := ⌊(a + SAMPLE_INSET) / TILE_SIZE⌋ with hc1
  set c2 := ⌊(a + s / 2) / TILE_SIZE⌋ with hc2
  set c3 := ⌊(a + s - SAMPLE_INSET) / TILE_SIZE⌋ with hc3
  have h12 : c1 ≤ c2 := floorT_mono _ _
    (by simp only [SAMPLE_INSET] at hs1 ⊢; linarith)
  have h23 : c2 ≤ c3 := floorT_mono _ _
    (by simp only [SAMPLE_INSET] at hs1 ⊢; linarith)
  have h21 : c2 ≤ c1 + 1 := floorT_gap _ _
    (by simp only [SAMPLE_INSET, TILE_SIZE] at hs1 hs2 ⊢; linarith)
  have h32 : c3 ≤ c2 + 1 := floorT_gap _ _
    (by simp only [SAMPLE_INSET, TILE_SIZE] at hs1 hs2 ⊢; linarith)
  rcases lt_trichotomy c c1 with hlt | heq | hgt
  · right; right; right; left
    have : c + 1 ≤ c1 := by omega
    calc ((c : ℚ) + 1) * TILE_SIZE = ((c + 1 : ℤ) : ℚ) * TILE_SIZE := by push_cast; ring
    _ ≤ (c1 : ℚ) * TILE_SIZE := intT_le _ _ this
    _ ≤ a + SAMPLE_INSET := floorT_mul_le _
  · exact Or.inl heq
  · rcases lt_trichotomy c3 c with hgt3 | heq3 | hlt3
    · right; right; right; right
      have : c3 + 1 ≤ c := by omega
      have hstep : a + s - SAMPLE_INSET < ((c3 : ℚ) + 1) * TILE_SIZE := lt_floorT_succ _
      calc a + s - SAMPLE_INSET ≤ ((c3 + 1 : ℤ) : ℚ) * TILE_SIZE := by
            push_cast
            linarith
        _ ≤ (c : ℚ) * TILE_SIZE := intT_le _ _ this
    · exact Or.inr (Or.inr (Or.inl heq3.symm))
    · have : c = c2 ∨ c = c3 := by omega
      rcases this with h | h
      · exact Or.inr (Or.inl h)
      · exact Or.inr (Or.inr (Or.inl h))

lemma integrate_intentNone (cfg : MovementConfig) (b : KinematicBody) (dt : ℚ) :
    integrate cfg b intentNone dt =
      { b with velocity := ⟨horizStep cfg intentNone b.velocity.x dt,
                           gravityStep cfg b.velocity.y dt⟩ } := by
  unfold integrate varHeightStep
  dsimp only
  simp [show intentNone.jumpJustPressed = false from rfl,
    show intentNone.jumpJustReleased = false from rfl]

lemma reconcileBuffer_not_grounded (cfg : MovementConfig) (w : Bool) (b : KinematicBody)
    (h : b.grounded = false) : reconcileBuffer cfg w b = b := by
  unfold reconcileBuffer
  rw [h]
  simp

lemma resolveX_clip (m : TileMap) (b : KinematicBody) (dx : ℚ)
    (hw0 : 0 ≤ b.size.x)
    (hh1 : 2 * SAMPLE_INSET < b.size.y) (hh2 : b.size.y ≤ TILE_SIZE)
    (hdx : |dx| < TILE_SIZE - SAMPLE_INSET)
    (hclean : cleanOf m b.position b.size) :
    yClipOnly m (resolveX m b dx).position b.size := by
  have hI0 : (0:ℚ) < SAMPLE_INSET := by norm_num [SAMPLE_INSET]
  have hTI : SAMPLE_INSET < TILE_SIZE := by norm_num [SAMPLE_INSET, TILE_SIZE]
  rcases lt_trichotomy dx 0 with hneg | hzero | hpos
  · -- moving left
    have hdxT : -dx < TILE_SIZE - SAMPLE_INSET := by rwa [abs_of_neg hneg] at hdx
    cases hcond : (isSolidAt m (b.position.x + dx) (b.position.y + SAMPLE_INSET) ||
        isSolidAt m (b.position.x + dx) (b.position.y + b.size.y / 2) ||
        isSolidAt m (b.position.x + dx) (b.position.y + b.size.y - SAMPLE_INSET)) with
    | false =>
      rw [resolveX_left_miss m b dx hneg hcond]
      intro c r hs hov
      unfold overlapsCell at hov
      dsimp only at hov
      obtain ⟨ho1, ho2, ho3, ho4⟩ := hov
      unfold yExtent
      dsimp only
      by_cases hcase : b.position.x < ((c : ℚ) + 1) * TILE_SIZE
      · exact absurd ⟨by linarith, hcase, ho3, ho4⟩ (hclean c r hs)
      · push_neg at hcase
        have hC1 : ⌊(b.position.x + dx) / TILE_SIZE⌋ = c := by
          have h1 : c ≤ ⌊(b.position.x + dx) / TILE_SIZE⌋ :=
            (le_floorT_iff _ _).mpr (by linarith)
          have h2 : ⌊(b.position.x + dx) / TILE_SIZE⌋ < c + 1 :=
            (floorT_lt_iff _ _).mpr (by push_cast; linarith)
          omega
        simp only [Bool.or_eq_false_iff] at hcond
        unfold isSolidAt at hcond
        rw [hC1] at hcond
        rcases sample_cover b.position.y b.size.y r hh1 hh2 with h | h | h | h | h
        · exact absurd hs (by rw [h, hcond.1.1]; simp)
        · exact absurd hs (by rw [h, hcond.1.2]; simp)
        · exact absurd hs (by rw [h, hcond.2]; simp)
        · exact extent_le_inset_low _ _ _ h
        · exact extent_le_inset_high _ _ _ h
    | true =>
      rw [resolveX_left_hit m b dx hneg hcond]
      have hCle : (⌊(b.position.x + dx) / TILE_SIZE⌋ : ℚ) * TILE_SIZE ≤ b.position.x + dx :=
        floorT_mul_le _
      have hClt : b.position.x + dx <
          ((⌊(b.position.x + dx) / TILE_SIZE⌋ : ℚ) + 1) * TILE_SIZE := lt_floorT_succ _
      have hsome : ∃ yj, (b.position.y + SAMPLE_INSET ≤ yj ∧
          yj ≤ b.position.y + b.size.y - SAMPLE_INSET) ∧
          m ⌊(b.position.x + dx) / TILE_SIZE⌋ ⌊yj / TILE_SIZE⌋ = true := by
        simp only [Bool.or_eq_true] at hcond
        unfold isSolidAt at hcond
        rcases hcond with (h | h) | h
        · exact ⟨_, ⟨le_refl _, by linarith⟩, h⟩
        · exact ⟨_, ⟨by linarith, by linarith⟩, h⟩
        · exact ⟨_, ⟨by linarith, le_refl _⟩, h⟩
      obtain ⟨yj, ⟨hyj1, hyj2⟩, hsolj⟩ := hsome
      have hrow1 : (⌊yj / TILE_SIZE⌋ : ℚ) * TILE_SIZE < b.position.y + b.size.y := by
        have := floorT_mul_le yj
        linarith
      have hrow2 : b.position.y < ((⌊yj / TILE_SIZE⌋ : ℚ) + 1) * TILE_SIZE := by
        have := lt_floorT_succ yj
        linarith
      have hxgap : ((⌊(b.position.x + dx) / TILE_SIZE⌋ : ℚ) + 1) * TILE_SIZE ≤ b.position.x := by
        by_contra hlt
        push_neg at hlt
        refine hclean _ _ hsolj ⟨?_, hlt, hrow1, hrow2⟩
        linarith
      intro c r hs hov
      exfalso
      unfold overlapsCell at hov
      dsimp only at hov
      obtain ⟨ho1, ho2, ho3, ho4⟩ := hov
      have hcC : ⌊(b.position.x + dx) / TILE_SIZE⌋ + 1 ≤ c := by
        have := intT_lt (⌊(b.position.x + dx) / TILE_SIZE⌋ + 1) (c + 1)
          (by push_cast; linarith)
        omega
      refine hclean c r hs ⟨?_, ?_, ho3, ho4⟩
      · linarith
      · have h1 : ((⌊(b.position.x + dx) / TILE_SIZE⌋ + 2 : ℤ) : ℚ) * TILE_SIZE ≤
            ((c : ℚ) + 1) * TILE_SIZE := by
          have := intT_le (⌊(b.position.x + dx) / TILE_SIZE⌋ + 2) (c + 1) (by omega)
          push_cast at this ⊢
          linarith
        push_cast at h1
        linarith
  · -- zero displacement
    rw [hzero, resolveX_zero]
    intro c r hs hov
    exact absurd hov (hclean c r hs)
  · -- moving right
    have hdxT : dx < TILE_SIZE - SAMPLE_INSET := by rwa [abs_of_pos hpos] at hdx
    cases hcond : (isSolidAt m (b.position.x + dx + b.size.x) (b.position.y + SAMPLE_INSET) ||
        isSolidAt m (b.position.x + dx + b.size.x) (b.position.y + b.size.y / 2) ||
        isSolidAt m (b.position.x + dx + b.size.x) (b.position.y + b.size.y - SAMPLE_INSET)) with
    | false =>
      rw [resolveX_right_miss m b dx hpos hcond]
      intro c r hs hov
      unfold overlapsCell at hov
      dsimp only at hov
      obtain ⟨ho1, ho2, ho3, ho4⟩ := hov
      unfold yExtent
      dsimp only
      by_cases hcase : (c : ℚ) * TILE_SIZE < b.position.x + b.size.x
      · exact absurd ⟨hcase, by linarith, ho3, ho4⟩ (hclean c r hs)
      · push_neg at hcase
        have hC1 : ⌊(b.position.x + dx + b.size.x) / TILE_SIZE⌋ = c := by
          have h1 : c ≤ ⌊(b.position.x + dx + b.size.x) / TILE_SIZE⌋ :=
            (le_floorT_iff _ _).mpr (le_of_lt ho1)
          have h2 : ⌊(b.position.x + dx + b.size.x) / TILE_SIZE⌋ < c + 1 :=
            (floorT_lt_iff _ _).mpr (by push_cast; linarith)
          omega
        simp only [Bool.or_eq_false_iff] at hcond
        unfold isSolidAt at hcond
        rw [hC1] at hcond
        rcases sample_cover b.position.y b.size.y r hh1 hh2 with h | h | h | h | h
        · exact absurd hs (by rw [h, hcond.1.1]; simp)
        · exact absurd hs (by rw [h, hcond.1.2]; simp)
        · exact absurd hs (by rw [h, hcond.2]; simp)
        · exact extent_le_inset_low _ _ _ h
        · exact extent_le_inset_high _ _ _ h
    | true =>
      rw [resolveX_right_hit m b dx hpos hcond]
      have hCle : (⌊(b.position.x + dx + b.size.x) / TILE_SIZE⌋ : ℚ) * TILE_SIZE ≤
          b.position.x + dx + b.size.x := floorT_mul_le _
      have hClt : b.position.x + dx + b.size.x <
          ((⌊(b.position.x + dx + b.size.x) / TILE_SIZE⌋ : ℚ) + 1) * TILE_SIZE :=
        lt_floorT_succ _
      have hsome : ∃ yj, (b.position.y + SAMPLE_INSET ≤ yj ∧
          yj ≤ b.position.y + b.size.y - SAMPLE_INSET) ∧
          m ⌊(b.position.x + dx + b.size.x) / TILE_SIZE⌋ ⌊yj / TILE_SIZE⌋ = true := by
        simp only [Bool.or_eq_true] at hcond
        unfold isSolidAt at hcond
        rcases hcond with (h | h) | h
        · exact ⟨_, ⟨le_refl _, by linarith⟩, h⟩
        · exact ⟨_, ⟨by linarith, by linarith⟩, h⟩
        · exact ⟨_, ⟨by linarith, le_refl _⟩, h⟩
      obtain ⟨yj, ⟨hyj1, hyj2⟩, hsolj⟩ := hsome
      have hrow1 : (⌊yj / TILE_SIZE⌋ : ℚ) * TILE_SIZE < b.position.y + b.size.y := by
        have := floorT_mul_le yj
        linarith
      have hrow2 : b.position.y < ((⌊yj / TILE_SIZE⌋ : ℚ) + 1) * TILE_SIZE := by
        have := lt_floorT_succ yj
        linarith
      have hxw : b.position.x + b.size.x ≤
          (⌊(b.position.x + dx + b.size.x) / TILE_SIZE⌋ : ℚ) * TILE_SIZE := by
        by_contra hlt
        push_neg at hlt
        refine hclean _ _ hsolj ⟨hlt, ?_, hrow1, hrow2⟩
        linarith
      intro c r hs hov
      exfalso
      unfold overlapsCell at hov
      dsimp only at hov
      obtain ⟨ho1, ho2, ho3, ho4⟩ := hov
      have hcC : c + 1 ≤ ⌊(b.position.x + dx + b.size.x) / TILE_SIZE⌋ := by
        have := intT_lt c ⌊(b.position.x + dx + b.size.x) / TILE_SIZE⌋ (by linarith)
        omega
      refine hclean c r hs ⟨?_, ?_, ho3, ho4⟩
      · have h1 : ((c + 1 : ℤ) : ℚ) * TILE_SIZE ≤
            ((⌊(b.position.x + dx + b.size.x) / TILE_SIZE⌋ : ℤ) : ℚ) * TILE_SIZE :=
          intT_le _ _ hcC
        push_cast at h1
        linarith
      · linarith

lemma resolveY_clip (m : TileMap) (b : KinematicBody) (dy : ℚ)
    (hw1 : 2 * SAMPLE_INSET < b.size.x) (hw2 : b.size.x ≤ TILE_SIZE)
    (hh1 : 2 * SAMPLE_INSET < b.size.y) (hh2 : b.size.y ≤ TILE_SIZE)
    (hdy : |dy| < TILE_SIZE - SAMPLE_INSET)
    (hP1 : yClipOnly m b.position b.size) :
    clipOnly m (resolveY m b dy).position b.size := by
  have hI0 : (0:ℚ) < SAMPLE_INSET := by norm_num [SAMPLE_INSET]
  have hTI : SAMPLE_INSET < TILE_SIZE := by norm_num [SAMPLE_INSET, TILE_SIZE]
  have hT0 : (0:ℚ) < TILE_SIZE := by norm_num [TILE_SIZE]
  rcases lt_trichotomy dy 0 with hneg | hzero | hpos
  · -- moving up
    have hdyT : -dy < TILE_SIZE - SAMPLE_INSET := by rwa [abs_of_neg hneg] at hdy
    cases hcond : (isSolidAt m (b.position.x + SAMPLE_INSET) (b.position.y + dy) ||
        isSolidAt m (b.position.x + b.size.x / 2) (b.position.y + dy) ||
        isSolidAt m (b.position.x + b.size.x - SAMPLE_INSET) (b.position.y + dy)) with
    | false =>
      rw [resolveY_up_miss m b dy hneg hcond]
      intro c r hs hov
      unfold overlapsCell at hov
      dsimp only at hov
      obtain ⟨ho1, ho2, ho3, ho4⟩ := hov
      unfold xExtent yExtent
      dsimp only
      simp only [Bool.or_eq_false_iff] at hcond
      unfold isSolidAt at hcond
      by_cases hB1 : b.position.y < ((r : ℚ) + 1) * TILE_SIZE
      · -- the cell already met the box before the move
        have hrees : (r : ℚ) * TILE_SIZE < b.position.y + b.size.y := by linarith
        have hclip := hP1 c r hs ⟨ho1, ho2, hrees, hB1⟩
        unfold yExtent at hclip
        rcases le_total (((r : ℚ) + 1) * TILE_SIZE) (b.position.y + b.size.y) with hm | hm
        · rw [min_eq_right hm] at hclip
          rcases le_total ((r : ℚ) * TILE_SIZE) b.position.y with hx | hx
          · -- top clip: the sampled row
            rw [max_eq_left hx] at hclip
            have hR : ⌊(b.position.y + dy) / TILE_SIZE⌋ = r := by
              have h1 : r ≤ ⌊(b.position.y + dy) / TILE_SIZE⌋ :=
                (le_floorT_iff _ _).mpr (by linarith)
              have h2 : ⌊(b.position.y + dy) / TILE_SIZE⌋ < r + 1 :=
                (floorT_lt_iff _ _).mpr (by push_cast; linarith)
              omega
            rw [hR] at hcond
            rcases sample_cover b.position.x b.size.x c hw1 hw2 with h | h | h | h | h
            · exact absurd hs (by rw [h, hcond.1.1]; simp)
            · exact absurd hs (by rw [h, hcond.1.2]; simp)
            · exact absurd hs (by rw [h, hcond.2]; simp)
            · exact Or.inl (extent_le_inset_low _ _ _ h)
            · exact Or.inl (extent_le_inset_high _ _ _ h)
          · rw [max_eq_right hx] at hclip
            exfalso
            linarith
        · rw [min_eq_left hm] at hclip
          rcases le_total ((r : ℚ) * TILE_SIZE) b.position.y with hx | hx
          · rw [max_eq_left hx] at hclip
            exfalso
            linarith
          · -- bottom clip: shrinks while moving up
            rw [max_eq_right hx] at hclip
            right
            have h1 := min_le_left (b.position.y + dy + b.size.y) (((r : ℚ) + 1) * TILE_SIZE)
            have h2 := le_max_right (b.position.y + dy) ((r : ℚ) * TILE_SIZE)
            linarith
      · -- cell strictly above the original box: must be the sampled row
        push_neg at hB1
        have hR : ⌊(b.position.y + dy) / TILE_SIZE⌋ = r := by
          have h1 : r ≤ ⌊(b.position.y + dy) / TILE_SIZE⌋ :=
            (le_floorT_iff _ _).mpr (by linarith)
          have h2 : ⌊(b.position.y + dy) / TILE_SIZE⌋ < r + 1 :=
            (floorT_lt_iff _ _).mpr (by push_cast; linarith)
          omega
        rw [hR] at hcond
        rcases sample_cover b.position.x b.size.x c hw1 hw2 with h | h | h | h | h
        · exact absurd hs (by rw [h, hcond.1.1]; simp)
        · exact absurd hs (by rw [h, hcond.1.2]; simp)
        · exact absurd hs (by rw [h, hcond.2]; simp)
        · exact Or.inl (extent_le_inset_low _ _ _ h)
        · exact Or.inl (extent_le_inset_high _ _ _ h)
    | true =>
      rw [resolveY_up_hit m b dy hneg hcond]
      have hRle : (⌊(b.position.y + dy) / TILE_SIZE⌋ : ℚ) * TILE_SIZE ≤ b.position.y + dy :=
        floorT_mul_le _
      have hRlt : b.position.y + dy <
          ((⌊(b.position.y + dy) / TILE_SIZE⌋ : ℚ) + 1) * TILE_SIZE := lt_floorT_succ _
      have hsome : ∃ xj, (b.position.x + SAMPLE_INSET ≤ xj ∧
          xj ≤ b.position.x + b.size.x - SAMPLE_INSET) ∧
          m ⌊xj / TILE_SIZE⌋ ⌊(b.position.y + dy) / TILE_SIZE⌋ = true := by
        simp only [Bool.or_eq_true] at hcond
        unfold isSolidAt at hcond
        rcases hcond with (h | h) | h
        · exact ⟨_, ⟨le_refl _, by linarith⟩, h⟩
        · exact ⟨_, ⟨by linarith, by linarith⟩, h⟩
        · exact ⟨_, ⟨by linarith, le_refl _⟩, h⟩
      obtain ⟨xj, ⟨hxj1, hxj2⟩, hsolj⟩ := hsome
      have hcol1 : (⌊xj / TILE_SIZE⌋ : ℚ) * TILE_SIZE < b.position.x + b.size.x := by
        have := floorT_mul_le xj
        linarith
      have hcol2 : b.position.x < ((⌊xj / TILE_SIZE⌋ : ℚ) + 1) * TILE_SIZE := by
        have := lt_floorT_succ xj
        linarith
      intro c r hs hov
      exfalso
      unfold overlapsCell at hov
      dsimp only at hov
      obtain ⟨ho1, ho2, ho3, ho4⟩ := hov
      -- the only row meeting the snapped box is R + 1
      have hr : r = ⌊(b.position.y + dy) / TILE_SIZE⌋ + 1 := by
        have h1 : ⌊(b.position.y + dy) / TILE_SIZE⌋ + 1 ≤ r := by
          have := intT_lt (⌊(b.position.y + dy) / TILE_SIZE⌋ + 1) (r + 1)
            (by push_cast; linarith)
          omega
        have h2 : r ≤ ⌊(b.position.y + dy) / TILE_SIZE⌋ + 1 := by
          have h3 : (r : ℚ) * TILE_SIZE <
              ((⌊(b.position.y + dy) / TILE_SIZE⌋ + 2 : ℤ) : ℚ) * TILE_SIZE := by
            push_cast
            linarith
          have := intT_lt r (⌊(b.position.y + dy) / TILE_SIZE⌋ + 2) h3
          omega
        omega
      subst hr
      by_cases hx : b.position.y < ((⌊(b.position.y + dy) / TILE_SIZE⌋ : ℚ) + 1) * TILE_SIZE
      · -- not crossed: the trigger cell met the original box
        have htrig := hP1 _ _ hsolj ⟨hcol1, hcol2, by linarith, hx⟩
        unfold yExtent at htrig
        rcases le_total (b.position.y + b.size.y)
            (((⌊(b.position.y + dy) / TILE_SIZE⌋ : ℚ) + 1) * TILE_SIZE) with hm2 | hm2
        · rw [min_eq_left hm2,
            max_eq_left (by linarith : (⌊(b.position.y + dy) / TILE_SIZE⌋ : ℚ) * TILE_SIZE ≤
              b.position.y)] at htrig
          linarith
        · rw [min_eq_right hm2,
            max_eq_left (by linarith : (⌊(b.position.y + dy) / TILE_SIZE⌋ : ℚ) * TILE_SIZE ≤
              b.position.y)] at htrig
          -- the snap line is within the inset above the body top
          have hcell := hP1 c (⌊(b.position.y + dy) / TILE_SIZE⌋ + 1) hs
            ⟨ho1, ho2, by push_cast; linarith, by push_cast; linarith⟩
          unfold yExtent at hcell
          rw [max_eq_right (by push_cast; linarith)] at hcell
          rcases le_total (b.position.y + b.size.y)
              (((⌊(b.position.y + dy) / TILE_SIZE⌋ + 1 : ℤ) : ℚ) * TILE_SIZE + TILE_SIZE)
              with hm3 | hm3
          · rw [min_eq_left (by push_cast at hm3 ⊢; linarith)] at hcell
            push_cast at hcell
            linarith
          · rw [min_eq_right (by push_cast at hm3 ⊢; linarith)] at hcell
            push_cast at hcell
            linarith
      · -- crossed (or flush)
        push_neg at hx
        have hcell := hP1 c (⌊(b.position.y + dy) / TILE_SIZE⌋ + 1) hs
          ⟨ho1, ho2, by push_cast; linarith, by push_cast; linarith⟩
        unfold yExtent at hcell
        rw [max_eq_left (by push_cast; linarith)] at hcell
        rcases le_total (b.position.y + b.size.y)
            (((⌊(b.position.y + dy) / TILE_SIZE⌋ + 1 : ℤ) : ℚ) * TILE_SIZE + TILE_SIZE)
            with hm3 | hm3
        · rw [min_eq_left (by push_cast at hm3 ⊢; linarith)] at hcell
          linarith
        · rw [min_eq_right (by push_cast at hm3 ⊢; linarith)] at hcell
          push_cast at hcell
          linarith
  · rw [hzero, resolveY_zero]
    intro c r hs hov
    exact Or.inr (hP1 c r hs hov)
  · -- moving down
    have hdyT : dy < TILE_SIZE - SAMPLE_INSET := by rwa [abs_of_pos hpos] at hdy
    cases hcond : (isSolidAt m (b.position.x + SAMPLE_INSET) (b.position.y + dy + b.size.y) ||
        isSolidAt m (b.position.x + b.size.x / 2) (b.position.y + dy + b.size.y) ||
        isSolidAt m (b.position.x + b.size.x - SAMPLE_INSET) (b.position.y + dy + b.size.y)) with
    | false =>
      rw [resolveY_down_miss m b dy hpos hcond]
      intro c r hs hov
      unfold overlapsCell at hov
      dsimp only at hov
      obtain ⟨ho1, ho2, ho3, ho4⟩ := hov
      unfold xExtent yExtent
      dsimp only
      simp only [Bool.or_eq_false_iff] at hcond
      unfold isSolidAt at hcond
      by_cases hB1 : (r : ℚ) * TILE_SIZE < b.position.y + b.size.y
      · have hB1' : b.position.y < ((r : ℚ) + 1) * TILE_SIZE := by linarith
        have hclip := hP1 c r hs ⟨ho1, ho2, hB1, hB1'⟩
        unfold yExtent at hclip
        rcases le_total (((r : ℚ) + 1) * TILE_SIZE) (b.position.y + b.size.y) with hm | hm
        · rw [min_eq_right hm] at hclip
          rcases le_total ((r : ℚ) * TILE_SIZE) b.position.y with hx | hx
          · -- top clip: shrinks while moving down
            rw [max_eq_left hx] at hclip
            right
            have h1 := min_le_right (b.position.y + dy + b.size.y) (((r : ℚ) + 1) * TILE_SIZE)
            have h2 := le_max_left (b.position.y + dy) ((r : ℚ) * TILE_SIZE)
            linarith
          · rw [max_eq_right hx] at hclip
            exfalso
            linarith
        · rw [min_eq_left hm] at hclip
          rcases le_total ((r : ℚ) * TILE_SIZE) b.position.y with hx | hx
          · rw [max_eq_left hx] at hclip
            exfalso
            linarith
          · -- bottom clip: the sampled row
            rw [max_eq_right hx] at hclip
            have hR : ⌊(b.position.y + dy + b.size.y) / TILE_SIZE⌋ = r := by
              have h1 : r ≤ ⌊(b.position.y + dy + b.size.y) / TILE_SIZE⌋ :=
                (le_floorT_iff _ _).mpr (by linarith)
              have h2 : ⌊(b.position.y + dy + b.size.y) / TILE_SIZE⌋ < r + 1 :=
                (floorT_lt_iff _ _).mpr (by push_cast; linarith)
              omega
            rw [hR] at hcond
            rcases sample_cover b.position.x b.size.x c hw1 hw2 with h | h | h | h | h
            · exact absurd hs (by rw [h, hcond.1.1]; simp)
            · exact absurd hs (by rw [h, hcond.1.2]; simp)
            · exact absurd hs (by rw [h, hcond.2]; simp)
            · exact Or.inl (extent_le_inset_low _ _ _ h)
            · exact Or.inl (extent_le_inset_high _ _ _ h)
      · -- cell entered from below: sampled row
        push_neg at hB1
        have hR : ⌊(b.position.y + dy + b.size.y) / TILE_SIZE⌋ = r := by
          have h1 : r ≤ ⌊(b.position.y + dy + b.size.y) / TILE_SIZE⌋ :=
            (le_floorT_iff _ _).mpr (by linarith)
          have h2 : ⌊(b.position.y + dy + b.size.y) / TILE_SIZE⌋ < r + 1 :=
            (floorT_lt_iff _ _).mpr (by push_cast; linarith)
          omega
        rw [hR] at hcond
        rcases sample_cover b.position.x b.size.x c hw1 hw2 with h | h | h | h | h
        · exact absurd hs (by rw [h, hcond.1.1]; simp)
        · exact absurd hs (by rw [h, hcond.1.2]; simp)
        · exact absurd hs (by rw [h, hcond.2]; simp)
        · exact Or.inl (extent_le_inset_low _ _ _ h)
        · exact Or.inl (extent_le_inset_high _ _ _ h)
    | true =>
      rw [resolveY_down_hit m b dy hpos hcond]
      have hRle : (⌊(b.position.y + dy + b.size.y) / TILE_SIZE⌋ : ℚ) * TILE_SIZE ≤
          b.position.y + dy + b.size.y := floorT_mul_le _
      have hRlt : b.position.y + dy + b.size.y <
          ((⌊(b.position.y + dy + b.size.y) / TILE_SIZE⌋ : ℚ) + 1) * TILE_SIZE :=
        lt_floorT_succ _
      have hsome : ∃ xj, (b.position.x + SAMPLE_INSET ≤ xj ∧
          xj ≤ b.position.x + b.size.x - SAMPLE_INSET) ∧
          m ⌊xj / TILE_SIZE⌋ ⌊(b.position.y + dy + b.size.y) / TILE_SIZE⌋ = true := by
        simp only [Bool.or_eq_true] at hcond
        unfold isSolidAt at hcond
        rcases hcond with (h | h) | h
        · exact ⟨_, ⟨le_refl _, by linarith⟩, h⟩
        · exact ⟨_, ⟨by linarith, by linarith⟩, h⟩
        · exact ⟨_, ⟨by linarith, le_refl _⟩, h⟩
      obtain ⟨xj, ⟨hxj1, hxj2⟩, hsolj⟩ := hsome
      have hcol1 : (⌊xj / TILE_SIZE⌋ : ℚ) * TILE_SIZE < b.position.x + b.size.x := by
        have := floorT_mul_le xj
        linarith
      have hcol2 : b.position.x < ((⌊xj / TILE_SIZE⌋ : ℚ) + 1) * TILE_SIZE := by
        have := lt_floorT_succ xj
        linarith
      intro c r hs hov
      exfalso
      unfold overlapsCell at hov
      dsimp only at hov
      obtain ⟨ho1, ho2, ho3, ho4⟩ := hov
      -- the only row meeting the snapped box is R − 1
      have hr : r = ⌊(b.position.y + dy + b.size.y) / TILE_SIZE⌋ - 1 := by
        have h1 : r ≤ ⌊(b.position.y + dy + b.size.y) / TILE_SIZE⌋ - 1 := by
          have := intT_lt r ⌊(b.position.y + dy + b.size.y) / TILE_SIZE⌋ (by linarith)
          omega
        have h2 : ⌊(b.position.y + dy + b.size.y) / TILE_SIZE⌋ - 1 ≤ r := by
          have h3 : ((⌊(b.position.y + dy + b.size.y) / TILE_SIZE⌋ - 1 : ℤ) : ℚ) * TILE_SIZE <
              ((r + 1 : ℤ) : ℚ) * TILE_SIZE := by
            push_cast
            linarith
          have := intT_lt (⌊(b.position.y + dy + b.size.y) / TILE_SIZE⌋ - 1) (r + 1) h3
          omega
        omega
      subst hr
      by_cases hpen : (⌊(b.position.y + dy + b.size.y) / TILE_SIZE⌋ : ℚ) * TILE_SIZE <
          b.position.y + b.size.y
      · -- the body's bottom already dipped into row R: trigger cell met the box
        have htrig := hP1 _ _ hsolj ⟨hcol1, hcol2, hpen, by linarith⟩
        unfold yExtent at htrig
        rw [min_eq_left (by linarith : b.position.y + b.size.y ≤
            ((⌊(b.position.y + dy + b.size.y) / TILE_SIZE⌋ : ℚ) + 1) * TILE_SIZE)] at htrig
        rcases le_total ((⌊(b.position.y + dy + b.size.y) / TILE_SIZE⌋ : ℚ) * TILE_SIZE)
            b.position.y with hx2 | hx2
        · -- body fully inside row R's band: extent is the whole height, contradiction
          rw [max_eq_left hx2] at htrig
          linarith
        · rw [max_eq_right hx2] at htrig
          -- dip bounded by the inset; the body top is strictly above row R
          have hylt : b.position.y <
              (⌊(b.position.y + dy + b.size.y) / TILE_SIZE⌋ : ℚ) * TILE_SIZE := by
            by_contra hcon
            push_neg at hcon
            linarith
          have hcell := hP1 c (⌊(b.position.y + dy + b.size.y) / TILE_SIZE⌋ - 1) hs
            ⟨ho1, ho2, by push_cast; linarith, by push_cast; linarith⟩
          unfold yExtent at hcell
          rw [min_eq_right (by push_cast; linarith)] at hcell
          rcases le_total (((⌊(b.position.y + dy + b.size.y) / TILE_SIZE⌋ - 1 : ℤ) : ℚ) *
              TILE_SIZE) b.position.y with hx3 | hx3
          · rw [max_eq_left hx3] at hcell
            push_cast at hcell
            linarith
          · rw [max_eq_right hx3] at hcell
            push_cast at hcell
            linarith
      · -- body ended at or above row R's top
        push_neg at hpen
        have hcell := hP1 c (⌊(b.position.y + dy + b.size.y) / TILE_SIZE⌋ - 1) hs
          ⟨ho1, ho2, by push_cast; linarith, by push_cast; linarith⟩
        unfold yExtent at hcell
        rw [min_eq_left (by push_cast; linarith)] at hcell
        rcases le_total (((⌊(b.position.y + dy + b.size.y) / TILE_SIZE⌋ - 1 : ℤ) : ℚ) *
            TILE_SIZE) b.position.y with hx3 | hx3
        · rw [max_eq_left hx3] at hcell
          linarith
        · rw [max_eq_right hx3] at hcell
          push_cast at hcell
          linarith

/-- C2 (amended): the no-overlap invariant as the spec's own algorithm (three
inset leading-edge samples, single snap, no queries on a zero displacement)
actually guarantees it.  If the body's box overlaps no solid tile at the start
of the tick, the hitbox dimensions lie strictly between twice the sampling
inset and one tile, and each axis displacement of the tick is smaller in
magnitude than TILE_SIZE − SAMPLE_INSET, then after the tick every overlap
between the body's box and a solid tile is a corner clip of extent at most the
2-unit sampling inset on at least one axis.  (A body that starts the tick
embedded may remain overlapping: see the counterexample.) -/
theorem tick_no_overlap (cfg : MovementConfig) (m : TileMap) (b : KinematicBody)
    (intent : InputIntent) (dt : ℚ)
    (hw1 : 2 * SAMPLE_INSET < b.size.x) (hw2 : b.size.x ≤ TILE_SIZE)
    (hh1 : 2 * SAMPLE_INSET < b.size.y) (hh2 : b.size.y ≤ TILE_SIZE)
    (hclean : cleanOf m b.position b.size)
    (hdx : |(integrate cfg (updateTimers cfg intent b dt) intent dt).velocity.x * dt| <
      TILE_SIZE - SAMPLE_INSET)
    (hdy : |(integrate cfg (updateTimers cfg intent b dt) intent dt).velocity.y * dt| <
      TILE_SIZE - SAMPLE_INSET) :
    clipOnly m (tick cfg m b intent dt).position b.size ∧
    (tick cfg m b intent dt).size = b.size := by
  by_cases h0 : dt = 0
  · rw [h0, tick_zero_dt_noop]
    exact ⟨fun c r hs hov => absurd hov (hclean c r hs), rfl⟩
  · rw [tick_of_ne cfg m b intent dt h0]
    set b2 := integrate cfg (updateTimers cfg intent b dt) intent dt with hb2
    have hpos2 : b2.position = b.position := by
      rw [hb2, integrate_position, updateTimers_position]
    have hsize2 : b2.size = b.size := by
      rw [hb2, integrate_size, updateTimers_size]
    have hclean2 : cleanOf m b2.position b2.size := by
      rw [hpos2, hsize2]
      exact hclean
    have hI0 : (0:ℚ) < SAMPLE_INSET := by norm_num [SAMPLE_INSET]
    have hX := resolveX_clip m b2 (b2.velocity.x * dt)
      (by rw [hsize2]; linarith) (by rw [hsize2]; exact hh1) (by rw [hsize2]; exact hh2)
      hdx hclean2
    set b3 := resolveX m b2 (b2.velocity.x * dt) with hb3
    have hsize3 : b3.size = b2.size := by rw [hb3, resolveX_size]
    have hvy3 : b3.velocity.y = b2.velocity.y := by rw [hb3, resolveX_velY]
    have hX' : yClipOnly m b3.position b3.size := by
      rw [hsize3, hsize2]
      rw [hsize2] at hX
      exact hX
    have hY := resolveY_clip m b3 (b3.velocity.y * dt)
      (by rw [hsize3, hsize2]; exact hw1) (by rw [hsize3, hsize2]; exact hw2)
      (by rw [hsize3, hsize2]; exact hh1) (by rw [hsize3, hsize2]; exact hh2)
      (by rw [hvy3]; exact hdy) hX'
    set b4 := resolveY m b3 (b3.velocity.y * dt) with hb4
    have hsize4 : b4.size = b3.size := by rw [hb4, resolveY_size]
    constructor
    · rw [reconcileBuffer_position]
      rw [hsize3, hsize2] at hY
      exact hY
    · rw [reconcileBuffer_size, hsize4, hsize3, hsize2]

/-- C2 counterexample to the claim as stated: a body fully embedded in a solid
tile whose upward velocity is exactly cancelled by one tick of gravity has zero
displacement on both axes, so the resolver performs no query (spec §4.2) and
the tick leaves the body overlapping the solid tile with extent 12 on both
axes — far beyond any epsilon. -/
theorem no_overlap_cex :
    mapEmbed 0 0 = true ∧
    (tick PLAYER_CONFIG mapEmbed bodyEmbed intentNone (1/60)).position = bodyEmbed.position ∧
    overlapsCell (tick PLAYER_CONFIG mapEmbed bodyEmbed intentNone (1/60)).position
      (tick PLAYER_CONFIG mapEmbed bodyEmbed intentNone (1/60)).size 0 0 ∧
    xExtent (tick PLAYER_CONFIG mapEmbed bodyEmbed intentNone (1/60)).position
      (tick PLAYER_CONFIG mapEmbed bodyEmbed intentNone (1/60)).size 0 = 12 ∧
    yExtent (tick PLAYER_CONFIG mapEmbed bodyEmbed intentNone (1/60)).position
      (tick PLAYER_CONFIG mapEmbed bodyEmbed intentNone (1/60)).size 0 = 12 := by
  have htick : tick PLAYER_CONFIG mapEmbed bodyEmbed intentNone (1/60) =
      integrate PLAYER_CONFIG (updateTimers PLAYER_CONFIG intentNone bodyEmbed (1/60))
        intentNone (1/60) := by
    rw [tick_of_ne PLAYER_CONFIG mapEmbed bodyEmbed intentNone (1/60) (by norm_num)]
    set b2 := integrate PLAYER_CONFIG (updateTimers PLAYER_CONFIG intentNone bodyEmbed (1/60))
      intentNone (1/60) with hb2def
    have hchar := integrate_intentNone PLAYER_CONFIG
      (updateTimers PLAYER_CONFIG intentNone bodyEmbed (1/60)) (1/60)
    have hvx2 : b2.velocity.x = 0 := by
      rw [hb2def, hchar]
      show horizStep PLAYER_CONFIG intentNone
        (updateTimers PLAYER_CONFIG intentNone bodyEmbed (1/60)).velocity.x (1/60) = 0
      rw [updateTimers_velocity]
      show horizStep PLAYER_CONFIG intentNone 0 (1/60) = 0
      exact horizStep_none_zero PLAYER_CONFIG (1/60)
    have hvy2 : b2.velocity.y = 0 := by
      rw [hb2def, hchar]
      show gravityStep PLAYER_CONFIG
        (updateTimers PLAYER_CONFIG intentNone bodyEmbed (1/60)).velocity.y (1/60) = 0
      rw [updateTimers_velocity]
      show gravityStep PLAYER_CONFIG (-20) (1/60) = 0
      unfold gravityStep PLAYER_CONFIG
      norm_num
    have hgr2 : b2.grounded = false := by
      rw [hb2def, hchar]
      show (updateTimers PLAYER_CONFIG intentNone bodyEmbed (1/60)).grounded = false
      rw [updateTimers_grounded]
      rfl
    rw [show b2.velocity.x * (1/60 : ℚ) = 0 by rw [hvx2]; ring, resolveX_zero]
    rw [show b2.velocity.y * (1/60 : ℚ) = 0 by rw [hvy2]; ring, resolveY_zero]
    exact reconcileBuffer_not_grounded PLAYER_CONFIG bodyEmbed.grounded b2 hgr2
  have hpos : (tick PLAYER_CONFIG mapEmbed bodyEmbed intentNone (1/60)).position =
      bodyEmbed.position := by
    rw [htick, integrate_position, updateTimers_position]
  have hsize : (tick PLAYER_CONFIG mapEmbed bodyEmbed intentNone (1/60)).size =
      bodyEmbed.size := by
    rw [htick, integrate_size, updateTimers_size]
  refine ⟨rfl, hpos, ?_, ?_, ?_⟩
  · rw [hpos, hsize]
    unfold overlapsCell bodyEmbed TILE_SIZE
    norm_num
  · rw [hpos, hsize]
    unfold xExtent bodyEmbed TILE_SIZE
    norm_num
  · rw [hpos, hsize]
    unfold yExtent bodyEmbed TILE_SIZE
    norm_num

/-- Witness for the amended C2 at a concrete input. -/
theorem tick_no_overlap_witness :
    clipOnly mapFloor (tick PLAYER_CONFIG mapFloor bodyRest intentNone (1/60)).position
      bodyRest.size ∧
    (tick PLAYER_CONFIG mapFloor bodyRest intentNone (1/60)).size = bodyRest.size := by
  have hvx : (integrate PLAYER_CONFIG (updateTimers PLAYER_CONFIG intentNone bodyRest (1/60))
      intentNone (1/60)).velocity.x = 0 := by
    rw [integrate_intentNone]
    show horizStep PLAYER_CONFIG intentNone
      (updateTimers PLAYER_CONFIG intentNone bodyRest (1/60)).velocity.x (1/60) = 0
    rw [updateTimers_velocity]
    exact horizStep_none_zero PLAYER_CONFIG (1/60)
  have hvy : (integrate PLAYER_CONFIG (updateTimers PLAYER_CONFIG intentNone bodyRest (1/60))
      intentNone (1/60)).velocity.y = 20 := by
    rw [integrate_intentNone]
    show gravityStep PLAYER_CONFIG
      (updateTimers PLAYER_CONFIG intentNone bodyRest (1/60)).velocity.y (1/60) = 20
    rw [updateTimers_velocity]
    show gravityStep PLAYER_CONFIG 0 (1/60) = 20
    unfold gravityStep PLAYER_CONFIG
    norm_num
  refine tick_no_overlap PLAYER_CONFIG mapFloor bodyRest intentNone (1/60)
    (by norm_num [bodyRest, SAMPLE_INSET]) (by norm_num [bodyRest, TILE_SIZE])
    (by norm_num [bodyRest, SAMPLE_INSET]) (by norm_num [bodyRest, TILE_SIZE])
    ?_ ?_ ?_
  · intro c r h hov
    simp only [mapFloor, decide_eq_true_eq] at h
    obtain ⟨rfl, rfl⟩ := h
    unfold overlapsCell bodyRest TILE_SIZE at hov
    norm_num at hov
  · rw [hvx]
    norm_num [SAMPLE_INSET, TILE_SIZE]
  · rw [hvy]
    have habs : |(20 : ℚ) * (1/60)| = 1/3 := by
      rw [abs_of_nonneg (by norm_num : (0:ℚ) ≤ 20 * (1/60))]
      norm_num
    rw [habs]
    norm_num [SAMPLE_INSET, TILE_SIZE]

/-- C5 counterexample to the claim as stated: at Δt = 1/5 every premise of the
claim holds (Δt ≥ 0, zero intent, body at rest and grounded on the solid floor
row), yet one tick moves the body from y = 2 to y = 50.  The gravity
displacement is 48 > TILE_SIZE, the bottom-edge samples land in the empty
row 4 past the floor, so no snap occurs and the body tunnels through its
support, changing position. -/
theorem rest_large_dt_cex :
    (0 : ℚ) ≤ 1/5 ∧ bodyRest.velocity = ⟨0, 0⟩ ∧ bodyRest.grounded = true ∧
    bodyRest.position.y + bodyRest.size.y = ((1 : ℤ) : ℚ) * TILE_SIZE ∧
    mapFloor ⌊(bodyRest.position.x + bodyRest.size.x / 2) / TILE_SIZE⌋ 1 = true ∧
    bodyRest.position.y = 2 ∧
    (tick PLAYER_CONFIG mapFloor bodyRest intentNone (1/5)).position.y = 50 := by
  refine ⟨by norm_num, rfl, rfl, by norm_num [bodyRest, TILE_SIZE],
    by norm_num [bodyRest, TILE_SIZE, mapFloor], rfl, ?_⟩
  rw [tick_of_ne PLAYER_CONFIG mapFloor bodyRest intentNone (1/5) (by norm_num)]
  set b2 := integrate PLAYER_CONFIG (updateTimers PLAYER_CONFIG intentNone bodyRest (1/5))
    intentNone (1/5) with hb2def
  have hchar := integrate_intentNone PLAYER_CONFIG
    (updateTimers PLAYER_CONFIG intentNone bodyRest (1/5)) (1/5)
  have hvx2 : b2.velocity.x = 0 := by
    rw [hb2def, hchar]
    show horizStep PLAYER_CONFIG intentNone
      (updateTimers PLAYER_CONFIG intentNone bodyRest (1/5)).velocity.x (1/5) = 0
    rw [updateTimers_velocity]
    exact horizStep_none_zero PLAYER_CONFIG (1/5)
  have hvy2 : b2.velocity.y = 240 := by
    rw [hb2def, hchar]
    show gravityStep PLAYER_CONFIG
      (updateTimers PLAYER_CONFIG intentNone bodyRest (1/5)).velocity.y (1/5) = 240
    rw [updateTimers_velocity]
    show gravityStep PLAYER_CONFIG 0 (1/5) = 240
    unfold gravityStep PLAYER_CONFIG
    norm_num
  have hpos2 : b2.position = bodyRest.position := by
    rw [hb2def, integrate_position, updateTimers_position]
  have hsize2 : b2.size = bodyRest.size := by
    rw [hb2def, integrate_size, updateTimers_size]
  rw [show b2.velocity.x * (1/5 : ℚ) = 0 by rw [hvx2]; ring, resolveX_zero]
  rw [show b2.velocity.y * (1/5 : ℚ) = 48 by rw [hvy2]; ring]
  have hmiss : (isSolidAt mapFloor (b2.position.x + SAMPLE_INSET)
        (b2.position.y + 48 + b2.size.y) ||
      isSolidAt mapFloor (b2.position.x + b2.size.x / 2) (b2.position.y + 48 + b2.size.y) ||
      isSolidAt mapFloor (b2.position.x + b2.size.x - SAMPLE_INSET)
        (b2.position.y + 48 + b2.size.y)) = false := by
    have hrow : ⌊(b2.position.y + 48 + b2.size.y) / TILE_SIZE⌋ = 4 := by
      rw [hpos2, hsize2]
      show ⌊((2 : ℚ) + 48 + 14) / TILE_SIZE⌋ = 4
      exact floorT_eq 4 _ (by norm_num [TILE_SIZE]) (by norm_num [TILE_SIZE])
    unfold isSolidAt
    rw [hrow]
    simp [mapFloor]
  rw [resolveY_down_miss mapFloor b2 48 (by norm_num) hmiss]
  rw [show bodyRest.grounded = true from rfl, reconcileBuffer_of_wasGrounded]
  show b2.position.y + 48 = 50
  rw [hpos2]
  show (2 : ℚ) + 48 = 50
  norm_num
